import Mathlib

/-!
Verification development for the XC7 I/O packing pass
(`src/rapidwright/pack_io_xc7.cc` of nextpnr-xilinx).

The C++ pass is shallowly embedded: cells, ports and attributes become
explicit Lean structures; the device database becomes a structure of
query functions; fatal errors (`log_error`, `NPNR_ASSERT`) become
`Except`/explicit error constructors; the undefined behaviour of popping
an empty `std::queue` becomes a distinguished result constructor.
-/

/-- Port directions, from nextpnr's `PortType` enum. -/
inductive PortType where
  | PORT_IN
  | PORT_OUT
  | PORT_INOUT
deriving DecidableEq

/-- A port of a cell: its direction and the (optional) net connected to it.
Nets are identified by their (unique) names, so two ports share a net
exactly when their `net` fields hold the same name. -/
structure PortData where
  dir : PortType
  net : Option String
deriving DecidableEq

/-- A netlist cell: name, type tag, ports keyed by port name, and the
string-keyed attribute store, mirroring nextpnr's `CellInfo`. -/
structure CellM where
  name : String
  type : String
  ports : List (String × PortData)
  attrs : List (String × String)
deriving DecidableEq

/-- Lookup in a string-keyed association list (first matching key), the
model of `std::unordered_map::at` / `count`-guarded access. -/
def alookup {α : Type} : List (String × α) → String → Option α
  | [], _ => none
  | (k', v) :: r, k => if k' = k then some v else alookup r k

/-- Update in a string-keyed association list: replaces the first entry
with the given key, or appends a fresh one, the model of
`std::unordered_map::operator[] = v`. -/
def aset {α : Type} : List (String × α) → String → α → List (String × α)
  | [], k, v => [(k, v)]
  | (k', v') :: r, k, v => if k' = k then (k, v) :: r else (k', v') :: aset r k v

/-- Number of entries with the given key (a well-formed map has at most one). -/
def countKey {α : Type} (l : List (String × α)) (k : String) : Nat :=
  l.countP (fun a => a.1 == k)

/-- Model of `get_net_or_empty`: the net of a port, or `none` when the
port is absent or disconnected. -/
def get_net_or_empty (c : CellM) (p : String) : Option String :=
  match alookup c.ports p with
  | some pd => pd.net
  | none => none

/-- Model of `disconnect_port`: sets the named port's net to null
(no-op when the port is absent). -/
def disconnect_port (c : CellM) (p : String) : CellM :=
  match alookup c.ports p with
  | some pd => { c with ports := aset c.ports p { pd with net := none } }
  | none => c

/-- Sets a cell attribute, the model of `cell->attrs[key] = value`. -/
def setCellAttr (c : CellM) (k v : String) : CellM :=
  { c with attrs := aset c.attrs k v }

/-- The device database visible to `pack_io`: bel enumeration in native
order plus the query functions used by the pass.  Bels are opaque
identifiers modelled as naturals. -/
structure Device where
  bels : List Nat
  belType : Nat → String
  belPackagePin : Nat → String
  nameOfBel : Nat → String
  belByName : String → Nat
  packagePinSite : String → String

/-- Outcome of the site-binding portion of `pack_io`.  `fatal` models
`log_error` (which aborts the pass); `emptyQueueRead` models the
undefined behaviour of calling `front()`/`pop()` on an empty
`std::queue`. -/
inductive IOResult (α : Type) where
  | ok : α → IOResult α
  | fatal : String → IOResult α
  | emptyQueueRead : IOResult α
deriving DecidableEq

/-- The `LOC` constraint processing applied to one pad cell
(`pack_io`, lines 163-172): resolve the package pin, abort fatally when
the device has no such pin, otherwise bind `site + "/PAD"`. -/
def processLoc (d : Device) (p : CellM) : Except String CellM :=
  match alookup p.attrs "LOC" with
  | none => Except.ok p
  | some loc =>
    let site := d.packagePinSite loc
    if site = "" then
      Except.error ("Unable to constrain IO '" ++ p.name ++
        "', device does not have a pin named '" ++ loc ++ "'")
    else Except.ok (setCellAttr p "BEL" (site ++ "/PAD"))

/-- The first loop of the site resolver (`pack_io`, lines 161-178):
process location constraints, collect the used-bel set and count the
unconstrained pads. -/
def resolveConstraints (d : Device) : List CellM → Except String (List CellM × List Nat × Nat)
  | [] => Except.ok ([], [], 0)
  | p :: ps => do
    let p' ← processLoc d p
    let (rest, used, cnt) ← resolveConstraints d ps
    match alookup p'.attrs "BEL" with
    | some b => Except.ok (p' :: rest, d.belByName b :: used, cnt)
    | none => Except.ok (p' :: rest, used, cnt + 1)

/-- The candidate filter of the queue-building loop: pad-type bel, with a
real package pin (`"."` marks a pin-less bel), not already used. -/
def belOk (d : Device) (used : List Nat) (b : Nat) : Bool :=
  (d.belType b == "IOB_PAD") && (!(d.belPackagePin b == ".")) && (!(used.contains b))

/-- The queue-building loop of `pack_io` (lines 179-191): scan bels in
device order, stop as soon as the queue holds `cnt` candidates. -/
def buildQueueAux (d : Device) (used : List Nat) (cnt : Nat) (acc : List Nat) :
    List Nat → List Nat
  | [] => acc
  | b :: rest =>
    if cnt ≤ acc.length then acc
    else if !(d.belType b == "IOB_PAD") then buildQueueAux d used cnt acc rest
    else if d.belPackagePin b == "." then buildQueueAux d used cnt acc rest
    else if used.contains b then buildQueueAux d used cnt acc rest
    else buildQueueAux d used cnt (acc ++ [b]) rest

/-- The candidate-site queue of `pack_io`. -/
def buildQueue (d : Device) (used : List Nat) (cnt : Nat) : List Nat :=
  buildQueueAux d used cnt [] d.bels

/-- The unconstrained-binding loop of `pack_io` (lines 193-199): each pad
without a `BEL` attribute takes the front of the queue.  The source pops
the queue without an emptiness check, so an empty queue here is the
undefined-behaviour outcome `none`. -/
def bindUnconstrained (d : Device) : List CellM → List Nat → Option (List CellM)
  | [], _ => some []
  | p :: ps, q =>
    match alookup p.attrs "BEL" with
    | some _ => (bindUnconstrained d ps q).map (fun r => p :: r)
    | none =>
      match q with
      | [] => none
      | b :: q' =>
        (bindUnconstrained d ps q').map
          (fun r => setCellAttr p "BEL" (d.nameOfBel b) :: r)

/-- The site-binding portion of `pack_io` (lines 159-199): constraint
resolution, candidate-queue construction, unconstrained binding. -/
def pack_io (d : Device) (pads : List CellM) : IOResult (List CellM) :=
  match resolveConstraints d pads with
  | Except.error e => IOResult.fatal e
  | Except.ok (pads', used, cnt) =>
    match bindUnconstrained d pads' (buildQueue d used cnt) with
    | none => IOResult.emptyQueueRead
    | some r => IOResult.ok r

/-- Number of unconstrained pads in a pad list. -/
def cntUnconstr (ps : List CellM) : Nat :=
  ps.countP (fun p => !(alookup p.attrs "BEL").isSome)

/-- The `BEL` attributes that the binding loop gave to the previously
unconstrained pads, in pad order. -/
def newBelAttrs (ps r : List CellM) : List String :=
  (ps.zip r).filterMap
    (fun pp => if (alookup pp.1.attrs "BEL").isSome then none else alookup pp.2.attrs "BEL")

/-- A technology-mapping rule: destination cell type and port-rename
table, the model of nextpnr's `XFormRule` as used here. -/
structure XFormRule where
  new_type : String
  port_xform : List (String × String)
deriving DecidableEq

/-- A value-initialized `XFormRule`, what `std::unordered_map::operator[]`
creates on first access. -/
def defaultXFormRule : XFormRule := { new_type := "", port_xform := [] }

/-- Read a rule from the table (default-constructed when absent), the
model of reading `hrio_rules[k]`. -/
def getRule (t : List (String × XFormRule)) (k : String) : XFormRule :=
  (alookup t k).getD defaultXFormRule

/-- Update a rule in place, default-inserting first, the model of
mutating `hrio_rules[k]`. -/
def updRule (t : List (String × XFormRule)) (k : String) (f : XFormRule → XFormRule) :
    List (String × XFormRule) :=
  match alookup t k with
  | some r => aset t k (f r)
  | none => t ++ [(k, f defaultXFormRule)]

/-- The `hrio_rules` table of `pack_io` (lines 209-223), built by the
same sequence of map mutations as the source. -/
def hrio_rules : List (String × XFormRule) :=
  let t : List (String × XFormRule) := []
  let t := updRule t "PAD" (fun r => { r with new_type := "PAD" })
  let t := updRule t "OBUF" (fun r => { r with new_type := "IOB33_OUTBUF" })
  let t := updRule t "OBUF" (fun r => { r with port_xform := aset r.port_xform "I" "IN" })
  let t := updRule t "OBUF" (fun r => { r with port_xform := aset r.port_xform "O" "OUT" })
  let t := updRule t "OBUF" (fun r => { r with port_xform := aset r.port_xform "T" "TRI" })
  let t := updRule t "OBUFT" (fun _ => getRule t "OBUF")
  let t := updRule t "IBUF" (fun r => { r with new_type := "IOB33_INBUF_EN" })
  let t := updRule t "IBUF" (fun r => { r with port_xform := aset r.port_xform "I" "PAD" })
  let t := updRule t "IBUF" (fun r => { r with port_xform := aset r.port_xform "O" "OUT" })
  let t := updRule t "IBUF_INTERMDISABLE" (fun _ => getRule t "IBUF")
  let t := updRule t "IBUF_IBUFDISABLE" (fun _ => getRule t "IBUF")
  let t := updRule t "IBUFDS_INTERMDISABLE_INT" (fun _ => getRule t "IBUF")
  let t := updRule t "IBUFDS_INTERMDISABLE_INT"
    (fun r => { r with port_xform := aset r.port_xform "IB" "DIFF_IN" })
  t

/-- A user of a net, as far as `decompose_iob`'s `pad_site` lambda needs
it: the user cell's type and attribute store. -/
structure NUser where
  cellType : String
  cellAttrs : List (String × String)

/-- The environment `decompose_iob` reads: the users of each net, and the
device's `getBelSite (getBelByName name)` composite (site of a named
bel). -/
structure DecEnv where
  users : String → List NUser
  belSite : String → String

/-- The `pad_site` lambda of `decompose_iob` (lines 64-69): the first
pad-typed user of the net supplies the site; no pad-typed user is the
`NPNR_ASSERT_FALSE` path.  An absent `BEL` attribute is read as the empty
string, matching `attrs[...]` default construction. -/
def pad_site (env : DecEnv) (n : String) : Except String String :=
  match (env.users n).find? (fun u => u.cellType == "PAD") with
  | some u => Except.ok (env.belSite ((alookup u.cellAttrs "BEL").getD ""))
  | none => Except.error ("can't find PAD for net " ++ n)

/-- Modelled from the spec: `create_cell`/`insert_ibuf` (spec 4.4 step 2;
`create_cell` lives outside this file) creates an elementary input-buffer
cell with input port `I` and output port `O` wired to the given nets. -/
def insert_ibuf (nm ty : String) (i o : Option String) : CellM :=
  { name := nm, type := ty,
    ports := [("I", { dir := PortType.PORT_IN, net := i }),
              ("O", { dir := PortType.PORT_OUT, net := o })],
    attrs := [] }

/-- Modelled from the spec: `insert_obuf` (spec 4.4 step 3; defined
outside this file) creates an elementary (tristate) output-buffer cell
wiring input-net to `I`, pad-net to `O` and the tristate-control net to
`T`. -/
def insert_obuf (nm ty : String) (i o t : Option String) : CellM :=
  { name := nm, type := ty,
    ports := [("I", { dir := PortType.PORT_IN, net := i }),
              ("O", { dir := PortType.PORT_OUT, net := o }),
              ("T", { dir := PortType.PORT_IN, net := t })],
    attrs := [] }

/-- Modelled from the spec: `int_name` (defined outside this file)
derives sub-cell names deterministically from the macro name and a role
suffix. -/
def int_name (base post : String) (_subpattern : Bool) : String :=
  base ++ "$" ++ post

/-- Modelled from the spec: `replace_port` (spec 4.1 and 4.4 step 2;
defined outside this file) moves a connection from the old cell's port to
the replacement cell's port, leaving the old port unconnected; an absent
old port is skipped, not an error. -/
def replace_port (old : CellM) (oldName : String) (rep : CellM) (repName : String) :
    CellM × CellM :=
  match alookup old.ports oldName with
  | none => (old, rep)
  | some pd =>
    ({ old with ports := aset old.ports oldName { pd with net := none } },
     { rep with ports := aset rep.ports repName pd })

/-- The macro type classes tested by `decompose_iob` (lines 58-62). -/
def ibufTypes : List String := ["IBUF", "IBUF_IBUFDISABLE", "IBUF_INTERMDISABLE"]

/-- Bidirectional macro types (line 60-61). -/
def iobufTypes : List String := ["IOBUF", "IOBUF_DCIEN", "IOBUF_INTERMDISABLE"]

/-- Single-ended output macro types (line 62). -/
def obufTypes : List String := ["OBUF", "OBUFT"]

/-- Direction encoding of the provenance serializer (lines 130-131). -/
def dirStr : PortType → String
  | PortType.PORT_INOUT => "inout"
  | PortType.PORT_OUT => "out"
  | PortType.PORT_IN => "in"

/-- One serialized provenance entry, `name` + `,` + direction + `;`
(lines 128-132). -/
def macroPortEntry (o : String × PortData) : String :=
  o.1 ++ "," ++ dirStr o.2.dir ++ ";"

/-- The original macro ports sharing a (non-null) net with a sub-cell
port (the condition of line 127). -/
def macroMatches (orig : List (String × PortData)) (pnet : Option String) :
    List (String × PortData) :=
  orig.filter (fun o => o.2.net.isSome && (o.2.net == pnet))

/-- The accumulated `macro_ports` string for one sub-cell port
(lines 125-134): entries of all matching original ports, concatenated in
order, each with a trailing `;`. -/
def macroPortsStr (orig : List (String × PortData)) (pnet : Option String) : String :=
  ((macroMatches orig pnet).map macroPortEntry).foldl (fun a b => a ++ b) ""

/-- Model of `macro_ports.erase(macro_ports.size() - 1)`: drop the final
character. -/
def eraseLast (s : String) : String := String.mk s.data.dropLast

/-- One step of the per-port provenance loop (lines 125-138): serialize
the matches for this port and store them, skipping empty strings. -/
def portMetaStep (orig : List (String × PortData)) (c : CellM) (p : String × PortData) : CellM :=
  let mp := macroPortsStr orig p.2.net
  if mp = "" then c
  else setCellAttr c ("X_MACRO_PORTS_" ++ p.1) (eraseLast mp)

/-- The per-port provenance loop of `decompose_iob` (lines 124-139),
folded over the sub-cell's ports. -/
def addPortMeta (orig : List (String × PortData)) (sc : CellM) : CellM :=
  sc.ports.foldl (portMetaStep orig) sc

/-- The whole metadata step applied to one cohort sub-cell
(lines 122-139): origin attribute, then per-port provenance. -/
def addMeta (macroType : String) (orig : List (String × PortData)) (sc : CellM) : CellM :=
  addPortMeta orig (setCellAttr sc "X_ORIG_MACRO_PRIM" macroType)

/-- The embedding of `XC7Packer::decompose_iob` (lines 56-142).  Returns
the mutated macro cell and the created sub-cells in creation order;
`Except.error` covers both `NPNR_ASSERT` failures and the `pad_site`
assertion. -/
def decompose_iob (env : DecEnv) (xil_iob : CellM) (is_hr : Bool) (iostandard : String) :
    Except String (CellM × List CellM) :=
  let is_se_ibuf := ibufTypes.contains xil_iob.type
  let is_se_iobuf := iobufTypes.contains xil_iob.type
  let is_se_obuf := obufTypes.contains xil_iob.type
  let orig_ports := xil_iob.ports
  do
    let (c1, inbufs) ←
      if is_se_ibuf || is_se_iobuf then
        match get_net_or_empty xil_iob (if is_se_iobuf then "IO" else "I") with
        | none => Except.error "NPNR_ASSERT failure: pad_net != nullptr"
        | some pad_net => do
          let site ← pad_site env pad_net
          let c := if !is_se_iobuf then disconnect_port xil_iob "I" else xil_iob
          let top_out := get_net_or_empty c "O"
          let c := disconnect_port c "O"
          let ibuf_type :=
            if xil_iob.type == "IBUF_IBUFDISABLE" || xil_iob.type == "IOBUF_DCIEN" then
              "IBUF_IBUFDISABLE"
            else if xil_iob.type == "IBUF_INTERMDISABLE" ||
                xil_iob.type == "IOBUF_INTERMDISABLE" then
              "IBUF_INTERMDISABLE"
            else "IBUF"
          let inbuf := insert_ibuf (int_name xil_iob.name "IBUF" is_se_iobuf) ibuf_type
            (some pad_net) top_out
          let inbuf := setCellAttr inbuf "BEL" (site ++ "/IOB33/INBUF_EN")
          let (c, inbuf) := replace_port c "IBUFDISABLE" inbuf "IBUFDISABLE"
          let (c, inbuf) := replace_port c "INTERMDISABLE" inbuf "INTERMDISABLE"
          Except.ok (c, [inbuf])
      else Except.ok (xil_iob, [])
    let (c2, obufs) ←
      if is_se_obuf || is_se_iobuf then
        match get_net_or_empty c1 (if is_se_iobuf then "IO" else "O") with
        | none => Except.error "NPNR_ASSERT failure: pad_net != nullptr"
        | some pad_net => do
          let site ← pad_site env pad_net
          let c := disconnect_port c1 (if is_se_iobuf then "IO" else "O")
          let has_dci := xil_iob.type == "IOBUF_DCIEN"
          let obuf := insert_obuf
            (int_name xil_iob.name
              (if is_se_iobuf || xil_iob.type == "OBUFT" then "OBUFT" else "OBUF")
              (!is_se_obuf))
            (if is_se_iobuf then (if has_dci then "OBUFT_DCIEN" else "OBUFT") else xil_iob.type)
            (get_net_or_empty c "I") (some pad_net) (get_net_or_empty c "T")
          let obuf := setCellAttr obuf "BEL" (site ++ "/IOB33/OUTBUF")
          let (c, obuf) := replace_port c "DCITERMDISABLE" obuf "DCITERMDISABLE"
          Except.ok (c, [obuf])
      else Except.ok (c1, [])
    let created := inbufs ++ obufs
    let created := if is_se_iobuf then created.map (addMeta xil_iob.type orig_ports) else created
    Except.ok (c2, created)

theorem alookup_aset_self {α : Type} (l : List (String × α)) (k : String) (v : α) :
    alookup (aset l k v) k = some v := by
  induction l with
  | nil => simp [aset, alookup]
  | cons a r ih =>
    by_cases h : a.1 = k
    · simp [aset, h, alookup]
    · simp [aset, h, alookup, ih]

theorem alookup_aset_ne {α : Type} (l : List (String × α)) {k k' : String} (v : α)
    (h : k ≠ k') : alookup (aset l k v) k' = alookup l k' := by
  induction l with
  | nil => simp [aset, alookup, h]
  | cons a r ih =>
    by_cases h1 : a.1 = k
    · simp [aset, h1, alookup, h]
    · by_cases h2 : a.1 = k'
      · simp [aset, h1, alookup, h2, Ne.symm h]
      · simp [aset, h1, alookup, h2, ih]

theorem countKey_cons_of_eq {α : Type} (a : String × α) (r : List (String × α)) (k : String)
    (h : a.1 = k) : countKey (a :: r) k = countKey r k + 1 := by
  simp [countKey, List.countP_cons, h]

theorem countKey_cons_of_ne {α : Type} (a : String × α) (r : List (String × α)) (k : String)
    (h : ¬a.1 = k) : countKey (a :: r) k = countKey r k := by
  simp [countKey, List.countP_cons, h]

theorem alookup_isSome_iff_countKey {α : Type} (l : List (String × α)) (k : String) :
    (alookup l k).isSome = true ↔ 0 < countKey l k := by
  induction l with
  | nil => simp [alookup, countKey]
  | cons a r ih =>
    by_cases h : a.1 = k
    · rw [countKey_cons_of_eq a r k h]
      simp [alookup, h]
    · rw [countKey_cons_of_ne a r k h]
      simpa [alookup, h] using ih

theorem countKey_aset_of_le_one {α : Type} (l : List (String × α)) (k : String) (v : α)
    (h : countKey l k ≤ 1) : countKey (aset l k v) k = 1 := by
  induction l with
  | nil => simp [aset, countKey, List.countP_cons]
  | cons a r ih =>
    by_cases h1 : a.1 = k
    · rw [countKey_cons_of_eq a r k h1] at h
      have hr : countKey r k = 0 := by omega
      have ha : aset (a :: r) k v = (k, v) :: r := by simp [aset, h1]
      rw [ha, countKey_cons_of_eq (k, v) r k rfl, hr]
    · rw [countKey_cons_of_ne a r k h1] at h
      have ha : aset (a :: r) k v = a :: aset r k v := by simp [aset, h1]
      rw [ha, countKey_cons_of_ne a _ k h1, ih h]

theorem countKey_aset_ne {α : Type} (l : List (String × α)) {k k' : String} (v : α)
    (h : k ≠ k') : countKey (aset l k v) k' = countKey l k' := by
  induction l with
  | nil =>
    show countKey [(k, v)] k' = countKey [] k'
    rw [countKey_cons_of_ne (k, v) [] k' h]
  | cons a r ih =>
    by_cases h1 : a.1 = k
    · have ha : aset (a :: r) k v = (k, v) :: r := by simp [aset, h1]
      have h2 : ¬a.1 = k' := by rw [h1]; exact h
      rw [ha, countKey_cons_of_ne (k, v) r k' h, countKey_cons_of_ne a r k' h2]
    · have ha : aset (a :: r) k v = a :: aset r k v := by simp [aset, h1]
      rw [ha]
      by_cases h2 : a.1 = k'
      · rw [countKey_cons_of_eq a _ k' h2, countKey_cons_of_eq a r k' h2, ih]
      · rw [countKey_cons_of_ne a _ k' h2, countKey_cons_of_ne a r k' h2, ih]

/-- Claim C9: in `hrio_rules`, the `OBUFT` rule equals the `OBUF` rule,
the `IBUF_INTERMDISABLE` and `IBUF_IBUFDISABLE` rules equal the `IBUF`
rule, and the `IBUFDS_INTERMDISABLE_INT` rule is the `IBUF` rule with
exactly one extra port rename, `IB`. -/
theorem hrio_rules_aliasing :
    getRule hrio_rules "OBUFT" = getRule hrio_rules "OBUF" ∧
    getRule hrio_rules "IBUF_INTERMDISABLE" = getRule hrio_rules "IBUF" ∧
    getRule hrio_rules "IBUF_IBUFDISABLE" = getRule hrio_rules "IBUF" ∧
    getRule hrio_rules "IBUFDS_INTERMDISABLE_INT" =
      { new_type := (getRule hrio_rules "IBUF").new_type,
        port_xform := (getRule hrio_rules "IBUF").port_xform ++ [("IB", "DIFF_IN")] } := by
  decide

/-- Claim C10: `decompose_iob` ignores its `is_hr` flag and `iostandard`
string entirely; any two values of these parameters give the same mutated
macro and the same created sub-cells. -/
theorem decompose_iob_param_independent (env : DecEnv) (m : CellM)
    (hr1 hr2 : Bool) (ios1 ios2 : String) :
    decompose_iob env m hr1 ios1 = decompose_iob env m hr2 ios2 := rfl

/-- Device for the resource-exhaustion evaluation: a single compatible
free pad site. -/
def dC1 : Device :=
  { bels := [0], belType := fun _ => "IOB_PAD", belPackagePin := fun _ => "A1",
    nameOfBel := fun _ => "IOB_X0Y0", belByName := fun _ => 0,
    packagePinSite := fun _ => "" }

/-- First unconstrained pad of the C1 evaluation. -/
def padC1a : CellM := { name := "pad_a", type := "PAD", ports := [], attrs := [] }

/-- Second unconstrained pad of the C1 evaluation. -/
def padC1b : CellM := { name := "pad_b", type := "PAD", ports := [], attrs := [] }

/-- Claim C1: evaluating the code at the failing input.  With two
unconstrained pads and one free compatible site, `pack_io` reads the
front of the empty candidate queue (undefined behaviour) instead of
reporting a fatal resource-exhaustion error. -/
theorem pack_io_empty_queue_read_on_exhaustion :
    pack_io dC1 [padC1a, padC1b] = IOResult.emptyQueueRead := by decide

/-- Device for the duplicate-location counterexample: pin `P1` resolves
to site `S1`. -/
def dC2 : Device :=
  { bels := [], belType := fun _ => "IOB_PAD", belPackagePin := fun _ => "A1",
    nameOfBel := fun _ => "x", belByName := fun _ => 0,
    packagePinSite := fun loc => if loc = "P1" then "S1" else "" }

/-- First pad constrained to `P1`. -/
def padC2a : CellM := { name := "pad_a", type := "PAD", ports := [], attrs := [("LOC", "P1")] }

/-- Second, distinct pad constrained to the same `P1`. -/
def padC2b : CellM := { name := "pad_b", type := "PAD", ports := [], attrs := [("LOC", "P1")] }

/-- Claim C2 counterexample: two distinct constrained pads naming the
same location both complete the pass bound to the same site `S1/PAD`, so
the uniqueness invariant fails exactly in the duplicated-location case
the claim includes. -/
theorem pack_io_duplicate_loc_shares_site :
    padC2a.name ≠ padC2b.name ∧
    pack_io dC2 [padC2a, padC2b] =
      IOResult.ok
        [{ name := "pad_a", type := "PAD", ports := [],
           attrs := [("LOC", "P1"), ("BEL", "S1/PAD")] },
         { name := "pad_b", type := "PAD", ports := [],
           attrs := [("LOC", "P1"), ("BEL", "S1/PAD")] }] ∧
    alookup [("LOC", "P1"), ("BEL", "S1/PAD")] "BEL" = some "S1/PAD" := by
  refine ⟨by decide, by decide, by decide⟩

theorem cntUnconstr_cons_constr (p : CellM) (ps : List CellM)
    (hp : (alookup p.attrs "BEL").isSome = true) :
    cntUnconstr (p :: ps) = cntUnconstr ps := by
  obtain ⟨v, hv⟩ := Option.isSome_iff_exists.mp hp
  simp [cntUnconstr, List.countP_cons, hv]

theorem cntUnconstr_cons_unconstr (p : CellM) (ps : List CellM)
    (hp : alookup p.attrs "BEL" = none) :
    cntUnconstr (p :: ps) = cntUnconstr ps + 1 := by
  simp [cntUnconstr, List.countP_cons, hp]

theorem buildQueueAux_eq (d : Device) (used : List Nat) (cnt : Nat) :
    ∀ (l acc : List Nat),
      buildQueueAux d used cnt acc l =
        acc ++ (l.filter (belOk d used)).take (cnt - acc.length) := by
  intro l
  induction l with
  | nil => intro acc; simp [buildQueueAux]
  | cons b rest ih =>
    intro acc
    by_cases h1 : cnt ≤ acc.length
    · have h0 : cnt - acc.length = 0 := Nat.sub_eq_zero_of_le h1
      simp [buildQueueAux, h1, h0]
    · cases h2 : d.belType b == "IOB_PAD" with
      | false =>
        have hb : belOk d used b = false := by simp [belOk, h2]
        simp [buildQueueAux, h1, h2, List.filter_cons, hb, ih]
      | true =>
        cases h3 : d.belPackagePin b == "." with
        | true =>
          have hb : belOk d used b = false := by simp [belOk, h3]
          simp [buildQueueAux, h1, h2, h3, List.filter_cons, hb, ih]
        | false =>
          cases h4 : used.contains b with
          | true =>
            have h4m : b ∈ used := by simpa using h4
            have hb : belOk d used b = false := by simp [belOk, h4m]
            simp [buildQueueAux, h1, h2, h3, h4, h4m, List.filter_cons, hb, ih]
          | false =>
            have h4m : b ∉ used := by simpa using h4
            have hb : belOk d used b = true := by simp [belOk, h2, h3, h4m]
            have hsub : cnt - acc.length = (cnt - (acc.length + 1)) + 1 := by omega
            simp [buildQueueAux, h1, h2, h3, h4, h4m, List.filter_cons, hb, ih, hsub,
              List.take_succ_cons]

theorem buildQueue_eq (d : Device) (used : List Nat) (cnt : Nat) :
    buildQueue d used cnt = (d.bels.filter (belOk d used)).take cnt := by
  simpa [buildQueue] using buildQueueAux_eq d used cnt d.bels []

theorem bindUnconstrained_some (d : Device) :
    ∀ (ps : List CellM) (q : List Nat), cntUnconstr ps ≤ q.length →
      ∃ r, bindUnconstrained d ps q = some r := by
  intro ps
  induction ps with
  | nil => intro q _; exact ⟨[], rfl⟩
  | cons p ps ih =>
    intro q h
    cases hb : alookup p.attrs "BEL" with
    | some v =>
      have hs : (alookup p.attrs "BEL").isSome = true := by simp [hb]
      rw [cntUnconstr_cons_constr p ps hs] at h
      obtain ⟨r, hr⟩ := ih q h
      exact ⟨p :: r, by simp [bindUnconstrained, hb, hr]⟩
    | none =>
      rw [cntUnconstr_cons_unconstr p ps hb] at h
      cases q with
      | nil => simp at h
      | cons b q2 =>
        obtain ⟨r, hr⟩ := ih q2 (by simpa using h)
        exact ⟨setCellAttr p "BEL" (d.nameOfBel b) :: r,
          by simp [bindUnconstrained, hb, hr]⟩

theorem bindUnconstrained_length (d : Device) :
    ∀ (ps : List CellM) (q : List Nat) (r : List CellM),
      bindUnconstrained d ps q = some r → r.length = ps.length := by
  intro ps
  induction ps with
  | nil =>
    intro q r h
    simp [bindUnconstrained] at h
    simp [← h]
  | cons p ps ih =>
    intro q r h
    cases hb : alookup p.attrs "BEL" with
    | some v =>
      simp [bindUnconstrained, hb] at h
      obtain ⟨r2, hr2, hcons⟩ := h
      subst hcons
      simp [ih q r2 hr2]
    | none =>
      cases q with
      | nil => simp [bindUnconstrained, hb] at h
      | cons b q2 =>
        simp [bindUnconstrained, hb] at h
        obtain ⟨r2, hr2, hcons⟩ := h
        subst hcons
        simp [ih q2 r2 hr2]

theorem bindUnconstrained_get_constrained (d : Device) :
    ∀ (ps : List CellM) (q : List Nat) (r : List CellM),
      bindUnconstrained d ps q = some r →
      ∀ (i : Nat) (hi : i < ps.length) (hi' : i < r.length),
        (alookup (ps.get ⟨i, hi⟩).attrs "BEL").isSome = true →
        r.get ⟨i, hi'⟩ = ps.get ⟨i, hi⟩ := by
  intro ps
  induction ps with
  | nil => intro q r h i hi; exact absurd hi (Nat.not_lt_zero i)
  | cons p ps ih =>
    intro q r h i hi hi' hsome
    cases hb : alookup p.attrs "BEL" with
    | some v =>
      simp [bindUnconstrained, hb] at h
      obtain ⟨r2, hr2, hcons⟩ := h
      subst hcons
      cases i with
      | zero => rfl
      | succ j =>
        have hj : j < ps.length := by simpa using hi
        have hj' : j < r2.length := by simpa using hi'
        have := ih q r2 hr2 j hj hj' (by simpa using hsome)
        simpa using this
    | none =>
      cases q with
      | nil => simp [bindUnconstrained, hb] at h
      | cons b q2 =>
        simp [bindUnconstrained, hb] at h
        obtain ⟨r2, hr2, hcons⟩ := h
        subst hcons
        cases i with
        | zero => simp [hb] at hsome
        | succ j =>
          have hj : j < ps.length := by simpa using hi
          have hj' : j < r2.length := by simpa using hi'
          have := ih q2 r2 hr2 j hj hj' (by simpa using hsome)
          simpa using this

theorem bindUnconstrained_newBelAttrs (d : Device) :
    ∀ (ps : List CellM) (q : List Nat) (r : List CellM),
      bindUnconstrained d ps q = some r →
      newBelAttrs ps r = (q.take (cntUnconstr ps)).map d.nameOfBel := by
  intro ps
  induction ps with
  | nil =>
    intro q r h
    simp [bindUnconstrained] at h
    subst h
    simp [newBelAttrs, cntUnconstr]
  | cons p ps ih =>
    intro q r h
    cases hb : alookup p.attrs "BEL" with
    | some v =>
      simp [bindUnconstrained, hb] at h
      obtain ⟨r2, hr2, hcons⟩ := h
      subst hcons
      have hs : (alookup p.attrs "BEL").isSome = true := by simp [hb]
      rw [cntUnconstr_cons_constr p ps hs]
      simpa [newBelAttrs, List.filterMap_cons, hb] using ih q r2 hr2
    | none =>
      cases q with
      | nil => simp [bindUnconstrained, hb] at h
      | cons b q2 =>
        simp [bindUnconstrained, hb] at h
        obtain ⟨r2, hr2, hcons⟩ := h
        subst hcons
        rw [cntUnconstr_cons_unconstr p ps hb]
        simpa [newBelAttrs, List.filterMap_cons, hb, setCellAttr, alookup_aset_self,
          List.take_succ_cons] using ih q2 r2 hr2

theorem bindUnconstrained_mem_bels (d : Device) :
    ∀ (ps : List CellM) (q : List Nat) (r : List CellM),
      bindUnconstrained d ps q = some r →
      ∀ s ∈ r.filterMap (fun p => alookup p.attrs "BEL"),
        s ∈ ps.filterMap (fun p => alookup p.attrs "BEL") ∨ ∃ b ∈ q, s = d.nameOfBel b := by
  intro ps
  induction ps with
  | nil =>
    intro q r h s hs
    simp [bindUnconstrained] at h
    subst h
    simp at hs
  | cons p ps ih =>
    intro q r h s hs
    cases hb : alookup p.attrs "BEL" with
    | some v =>
      simp [bindUnconstrained, hb] at h
      obtain ⟨r2, hr2, hcons⟩ := h
      subst hcons
      rw [List.filterMap_cons] at hs
      simp only [hb, List.mem_cons] at hs
      cases hs with
      | inl hs =>
        left
        rw [List.filterMap_cons]
        simp only [hb, List.mem_cons]
        left
        exact hs
      | inr hs =>
        cases ih q r2 hr2 s hs with
        | inl hm =>
          left
          rw [List.filterMap_cons]
          simp only [hb, List.mem_cons]
          right
          exact hm
        | inr hm => right; exact hm
    | none =>
      cases q with
      | nil => simp [bindUnconstrained, hb] at h
      | cons b q2 =>
        simp [bindUnconstrained, hb] at h
        obtain ⟨r2, hr2, hcons⟩ := h
        subst hcons
        rw [List.filterMap_cons] at hs
        simp only [setCellAttr, alookup_aset_self, List.mem_cons] at hs
        cases hs with
        | inl hs => right; exact ⟨b, by simp, hs⟩
        | inr hs =>
          cases ih q2 r2 hr2 s hs with
          | inl hm =>
            left
            rw [List.filterMap_cons]
            simp only [hb]
            exact hm
          | inr hm =>
            right
            obtain ⟨b2, hb2, hnm⟩ := hm
            exact ⟨b2, by simp [hb2], hnm⟩

theorem bindUnconstrained_count (d : Device) :
    ∀ (ps : List CellM) (q : List Nat) (r : List CellM),
      bindUnconstrained d ps q = some r →
      (∀ p ∈ ps, countKey p.attrs "BEL" ≤ 1) →
      ∀ p ∈ r, countKey p.attrs "BEL" = 1 := by
  intro ps
  induction ps with
  | nil =>
    intro q r h hk p hp
    simp [bindUnconstrained] at h
    subst h
    simp at hp
  | cons p ps ih =>
    intro q r h hk c hc
    cases hb : alookup p.attrs "BEL" with
    | some v =>
      simp [bindUnconstrained, hb] at h
      obtain ⟨r2, hr2, hcons⟩ := h
      subst hcons
      cases hc with
      | head =>
        have h1 : 0 < countKey p.attrs "BEL" :=
          (alookup_isSome_iff_countKey p.attrs "BEL").mp (by simp [hb])
        have h2 : countKey p.attrs "BEL" ≤ 1 := hk p (by simp)
        omega
      | tail _ hc => exact ih q r2 hr2 (fun x hx => hk x (by simp [hx])) c hc
    | none =>
      cases q with
      | nil => simp [bindUnconstrained, hb] at h
      | cons b q2 =>
        simp [bindUnconstrained, hb] at h
        obtain ⟨r2, hr2, hcons⟩ := h
        subst hcons
        cases hc with
        | head =>
          show countKey (aset p.attrs "BEL" (d.nameOfBel b)) "BEL" = 1
          exact countKey_aset_of_le_one p.attrs "BEL" _ (hk p (by simp))
        | tail _ hc => exact ih q2 r2 hr2 (fun x hx => hk x (by simp [hx])) c hc

theorem bindUnconstrained_nodup (d : Device) :
    ∀ (ps : List CellM) (q : List Nat) (r : List CellM),
      bindUnconstrained d ps q = some r →
      (ps.filterMap (fun p => alookup p.attrs "BEL")).Nodup →
      q.Nodup →
      (∀ b ∈ q, d.nameOfBel b ∉ ps.filterMap (fun p => alookup p.attrs "BEL")) →
      (∀ b b2, b ∈ q → b2 ∈ q → d.nameOfBel b = d.nameOfBel b2 → b = b2) →
      (r.filterMap (fun p => alookup p.attrs "BEL")).Nodup := by
  intro ps
  induction ps with
  | nil =>
    intro q r h _ _ _ _
    simp [bindUnconstrained] at h
    subst h
    simp
  | cons p ps ih =>
    intro q r h h1 h2 h3 h4
    cases hb : alookup p.attrs "BEL" with
    | some v =>
      simp [bindUnconstrained, hb] at h
      obtain ⟨r2, hr2, hcons⟩ := h
      subst hcons
      rw [List.filterMap_cons] at h1
      simp only [hb] at h1
      rw [List.nodup_cons] at h1
      obtain ⟨hv, h1t⟩ := h1
      rw [List.filterMap_cons]
      simp only [hb]
      rw [List.nodup_cons]
      constructor
      · intro hmem
        cases bindUnconstrained_mem_bels d ps q r2 hr2 v hmem with
        | inl hm => exact hv hm
        | inr hm =>
          obtain ⟨b, hbq, hnm⟩ := hm
          apply h3 b hbq
          rw [List.filterMap_cons]
          simp only [hb, List.mem_cons]
          left
          exact hnm.symm
      · refine ih q r2 hr2 h1t h2 ?_ h4
        intro b hbq hmem
        apply h3 b hbq
        rw [List.filterMap_cons]
        simp only [hb, List.mem_cons]
        right
        exact hmem
    | none =>
      cases q with
      | nil => simp [bindUnconstrained, hb] at h
      | cons b q2 =>
        simp [bindUnconstrained, hb] at h
        obtain ⟨r2, hr2, hcons⟩ := h
        subst hcons
        rw [List.filterMap_cons]
        simp only [setCellAttr, alookup_aset_self]
        rw [List.nodup_cons]
        rw [List.filterMap_cons] at h1
        simp only [hb] at h1
        rw [List.nodup_cons] at h2
        obtain ⟨hbq2, h2t⟩ := h2
        have h3t : ∀ b2 ∈ b :: q2, d.nameOfBel b2 ∉ ps.filterMap (fun p => alookup p.attrs "BEL") := by
          intro b2 hb2 hmem
          apply h3 b2 hb2
          rw [List.filterMap_cons]
          simp only [hb]
          exact hmem
        constructor
        · intro hmem
          cases bindUnconstrained_mem_bels d ps q2 r2 hr2 _ hmem with
          | inl hm => exact h3t b (by simp) hm
          | inr hm =>
            obtain ⟨b2, hb2, hnm⟩ := hm
            have heq : b = b2 := h4 b b2 (by simp) (by simp [hb2]) hnm
            subst heq
            exact hbq2 hb2
        · refine ih q2 r2 hr2 h1 h2t ?_ ?_
          · intro b2 hb2
            exact h3t b2 (by simp [hb2])
          · intro b2 b3 hb2 hb3
            exact h4 b2 b3 (by simp [hb2]) (by simp [hb3])

theorem resolveConstraints_cons_err (d : Device) (p : CellM) (ps : List CellM) (e : String)
    (hp : processLoc d p = Except.error e) :
    resolveConstraints d (p :: ps) = Except.error e := by
  simp only [resolveConstraints, hp]
  rfl

theorem resolveConstraints_tail_err (d : Device) (p : CellM) (ps : List CellM)
    (p' : CellM) (e : String)
    (hp : processLoc d p = Except.ok p') (hr : resolveConstraints d ps = Except.error e) :
    resolveConstraints d (p :: ps) = Except.error e := by
  simp only [resolveConstraints, hp, hr]
  rfl

theorem resolveConstraints_cons_ok (d : Device) (p : CellM) (ps : List CellM) (p' : CellM)
    (rest : List CellM) (used : List Nat) (cnt : Nat)
    (hp : processLoc d p = Except.ok p')
    (hr : resolveConstraints d ps = Except.ok (rest, used, cnt)) :
    resolveConstraints d (p :: ps) =
      match alookup p'.attrs "BEL" with
      | some b => Except.ok (p' :: rest, d.belByName b :: used, cnt)
      | none => Except.ok (p' :: rest, used, cnt + 1) := by
  simp only [resolveConstraints, hp, hr]
  rfl

theorem resolveConstraints_ok_inv (d : Device) (p : CellM) (ps : List CellM)
    (ps' : List CellM) (used : List Nat) (cnt : Nat)
    (h : resolveConstraints d (p :: ps) = Except.ok (ps', used, cnt)) :
    ∃ p' rest used0 cnt0,
      processLoc d p = Except.ok p' ∧
      resolveConstraints d ps = Except.ok (rest, used0, cnt0) ∧
      ps' = p' :: rest ∧
      ((∃ b, alookup p'.attrs "BEL" = some b ∧ used = d.belByName b :: used0 ∧ cnt = cnt0) ∨
       (alookup p'.attrs "BEL" = none ∧ used = used0 ∧ cnt = cnt0 + 1)) := by
  cases hp : processLoc d p with
  | error e =>
    rw [resolveConstraints_cons_err d p ps e hp] at h
    simp at h
  | ok p2 =>
    cases hr : resolveConstraints d ps with
    | error e =>
      rw [resolveConstraints_tail_err d p ps p2 e hp hr] at h
      simp at h
    | ok t =>
      obtain ⟨rest, used0, cnt0⟩ := t
      rw [resolveConstraints_cons_ok d p ps p2 rest used0 cnt0 hp hr] at h
      cases hb : alookup p2.attrs "BEL" with
      | some b =>
        simp only [hb, Except.ok.injEq, Prod.mk.injEq] at h
        obtain ⟨h1, h2, h3⟩ := h
        exact ⟨p2, rest, used0, cnt0, rfl, rfl, h1.symm, Or.inl ⟨b, hb, h2.symm, h3.symm⟩⟩
      | none =>
        simp only [hb, Except.ok.injEq, Prod.mk.injEq] at h
        obtain ⟨h1, h2, h3⟩ := h
        exact ⟨p2, rest, used0, cnt0, rfl, rfl, h1.symm, Or.inr ⟨hb, h2.symm, h3.symm⟩⟩

theorem processLoc_ok_cases (d : Device) (p p' : CellM)
    (h : processLoc d p = Except.ok p') :
    p' = p ∨ ∃ loc, alookup p.attrs "LOC" = some loc ∧ ¬d.packagePinSite loc = "" ∧
      p' = setCellAttr p "BEL" (d.packagePinSite loc ++ "/PAD") := by
  cases hl : alookup p.attrs "LOC" with
  | none =>
    simp [processLoc, hl] at h
    exact Or.inl h.symm
  | some loc =>
    by_cases hs : d.packagePinSite loc = ""
    · simp [processLoc, hl, hs] at h
    · simp [processLoc, hl, hs] at h
      exact Or.inr ⟨loc, rfl, hs, h.symm⟩

theorem resolveConstraints_length (d : Device) :
    ∀ (pads ps' : List CellM) (used : List Nat) (cnt : Nat),
      resolveConstraints d pads = Except.ok (ps', used, cnt) → ps'.length = pads.length := by
  intro pads
  induction pads with
  | nil =>
    intro ps' used cnt h
    simp [resolveConstraints] at h
    simp [h.1.symm]
  | cons p ps ih =>
    intro ps' used cnt h
    obtain ⟨p', rest, used0, cnt0, _, hr, hps, _⟩ :=
      resolveConstraints_ok_inv d p ps ps' used cnt h
    subst hps
    simp [ih rest used0 cnt0 hr]

theorem resolveConstraints_count (d : Device) :
    ∀ (pads ps' : List CellM) (used : List Nat) (cnt : Nat),
      resolveConstraints d pads = Except.ok (ps', used, cnt) →
      (∀ p ∈ pads, countKey p.attrs "BEL" ≤ 1) →
      ∀ p ∈ ps', countKey p.attrs "BEL" ≤ 1 := by
  intro pads
  induction pads with
  | nil =>
    intro ps' used cnt h _ p hp
    simp [resolveConstraints] at h
    rw [h.1] at hp
    simp at hp
  | cons p ps ih =>
    intro ps' used cnt h hk c hc
    obtain ⟨p', rest, used0, cnt0, hp, hr, hps, _⟩ :=
      resolveConstraints_ok_inv d p ps ps' used cnt h
    subst hps
    cases List.mem_cons.mp hc with
    | inl heq =>
      subst heq
      cases processLoc_ok_cases d p c hp with
      | inl he => rw [he]; exact hk p (by simp)
      | inr he =>
        obtain ⟨loc, _, _, he⟩ := he
        rw [he]
        show countKey (aset p.attrs "BEL" _) "BEL" ≤ 1
        rw [countKey_aset_of_le_one p.attrs "BEL" _ (hk p (by simp))]
    | inr hmem => exact ih rest used0 cnt0 hr (fun x hx => hk x (by simp [hx])) c hmem

theorem resolveConstraints_used (d : Device) :
    ∀ (pads ps' : List CellM) (used : List Nat) (cnt : Nat),
      resolveConstraints d pads = Except.ok (ps', used, cnt) →
      ∀ s ∈ ps'.filterMap (fun p => alookup p.attrs "BEL"), d.belByName s ∈ used := by
  intro pads
  induction pads with
  | nil =>
    intro ps' used cnt h s hs
    simp [resolveConstraints] at h
    rw [h.1] at hs
    simp at hs
  | cons p ps ih =>
    intro ps' used cnt h s hs
    obtain ⟨p', rest, used0, cnt0, hp, hr, hps, hcase⟩ :=
      resolveConstraints_ok_inv d p ps ps' used cnt h
    subst hps
    rw [List.filterMap_cons] at hs
    cases hcase with
    | inl hcase =>
      obtain ⟨b, hb, hu, _⟩ := hcase
      subst hu
      simp only [hb, List.mem_cons] at hs
      cases hs with
      | inl hs => subst hs; simp
      | inr hs => simp [ih rest used0 cnt0 hr s hs]
    | inr hcase =>
      obtain ⟨hb, hu, _⟩ := hcase
      simp only [hb] at hs
      rw [hu]
      exact ih rest used0 cnt0 hr s hs

theorem resolveConstraints_mem (d : Device) :
    ∀ (pads ps' : List CellM) (used : List Nat) (cnt : Nat),
      resolveConstraints d pads = Except.ok (ps', used, cnt) →
      ∀ p ∈ pads, ∀ loc, alookup p.attrs "LOC" = some loc → ¬d.packagePinSite loc = "" →
        ∃ p' ∈ ps',
          processLoc d p = Except.ok p' ∧
          alookup p'.attrs "BEL" = some (d.packagePinSite loc ++ "/PAD") ∧
          d.belByName (d.packagePinSite loc ++ "/PAD") ∈ used := by
  intro pads
  induction pads with
  | nil => intro ps' used cnt _ p hp; simp at hp
  | cons q qs ih =>
    intro ps' used cnt h p hp loc hloc hsite
    obtain ⟨q', rest, used0, cnt0, hq, hr, hps, hcase⟩ :=
      resolveConstraints_ok_inv d q qs ps' used cnt h
    subst hps
    cases List.mem_cons.mp hp with
    | inl heq =>
      rw [← heq] at hq
      have hq' : q' = setCellAttr p "BEL" (d.packagePinSite loc ++ "/PAD") := by
        simp [processLoc, hloc, hsite] at hq
        exact hq.symm
      have hbel : alookup q'.attrs "BEL" = some (d.packagePinSite loc ++ "/PAD") := by
        rw [hq']
        exact alookup_aset_self p.attrs "BEL" _
      cases hcase with
      | inl hcase =>
        obtain ⟨b, hb, hu, _⟩ := hcase
        rw [hbel] at hb
        cases hb
        subst hu
        exact ⟨q', by simp, hq, hbel, by simp⟩
      | inr hcase =>
        rw [hbel] at hcase
        simp at hcase
    | inr hmem =>
      obtain ⟨p', hp', hproc, hbel, hused⟩ := ih rest used0 cnt0 hr p hmem loc hloc hsite
      refine ⟨p', by simp [hp'], hproc, hbel, ?_⟩
      cases hcase with
      | inl hcase =>
        obtain ⟨b, _, hu, _⟩ := hcase
        subst hu
        simp [hused]
      | inr hcase =>
        obtain ⟨_, hu, _⟩ := hcase
        subst hu
        exact hused

theorem resolveConstraints_mid_err (d : Device) :
    ∀ (pre : List CellM), (∀ q ∈ pre, ∃ q', processLoc d q = Except.ok q') →
      ∀ (p : CellM) (post : List CellM) (e : String),
        processLoc d p = Except.error e →
        resolveConstraints d (pre ++ p :: post) = Except.error e := by
  intro pre
  induction pre with
  | nil =>
    intro _ p post e hp
    exact resolveConstraints_cons_err d p post e hp
  | cons q pre ih =>
    intro hpre p post e hp
    obtain ⟨q', hq⟩ := hpre q (by simp)
    have hrec := ih (fun x hx => hpre x (by simp [hx])) p post e hp
    exact resolveConstraints_tail_err d q (pre ++ p :: post) q' e hq hrec

/-- Claim C5: a pad whose `LOC` attribute names a package pin unknown to
the device aborts the whole pass with a fatal error naming that pin; a
resolvable pin is recorded as the pad's `BEL` attribute
(`site + "/PAD"`) and its bel enters the used-site set. -/
theorem pack_io_loc_resolution (d : Device) (pre post : List CellM) (p : CellM) (loc : String)
    (hloc : alookup p.attrs "LOC" = some loc)
    (hpre : ∀ q ∈ pre, ∃ q', processLoc d q = Except.ok q') :
    (d.packagePinSite loc = "" →
      pack_io d (pre ++ p :: post) =
        IOResult.fatal ("Unable to constrain IO '" ++ p.name ++
          "', device does not have a pin named '" ++ loc ++ "'")) ∧
    (¬d.packagePinSite loc = "" →
      ∀ ps' used cnt, resolveConstraints d (pre ++ p :: post) = Except.ok (ps', used, cnt) →
        ∃ p' ∈ ps',
          alookup p'.attrs "BEL" = some (d.packagePinSite loc ++ "/PAD") ∧
          d.belByName (d.packagePinSite loc ++ "/PAD") ∈ used) := by
  constructor
  · intro hs
    have herr : processLoc d p =
        Except.error ("Unable to constrain IO '" ++ p.name ++
          "', device does not have a pin named '" ++ loc ++ "'") := by
      simp [processLoc, hloc, hs]
    have hfin := resolveConstraints_mid_err d pre hpre p post _ herr
    simp [pack_io, hfin]
  · intro hs ps' used cnt hres
    obtain ⟨p', hp', _, hbel, hused⟩ :=
      resolveConstraints_mem d _ ps' used cnt hres p (by simp) loc hloc hs
    exact ⟨p', hp', hbel, hused⟩

/-- Device of the C5 witness: no pin resolves. -/
def dC5 : Device :=
  { bels := [], belType := fun _ => "IOB_PAD", belPackagePin := fun _ => "A1",
    nameOfBel := fun _ => "x", belByName := fun _ => 0,
    packagePinSite := fun _ => "" }

/-- Pad of the C5 witness, constrained to the unknown pin `P9`. -/
def padC5 : CellM := { name := "pad_w", type := "PAD", ports := [], attrs := [("LOC", "P9")] }

/-- Witness for C5 at a concrete device and pad. -/
theorem pack_io_loc_resolution_witness :
    alookup padC5.attrs "LOC" = some "P9" ∧
    pack_io dC5 ([] ++ padC5 :: []) =
      IOResult.fatal ("Unable to constrain IO '" ++ padC5.name ++
        "', device does not have a pin named '" ++ "P9" ++ "'") :=
  ⟨by decide,
    (pack_io_loc_resolution dC5 [] [] padC5 "P9" (by decide) (by simp)).1 (by decide)⟩

/-- Claim C7: the candidate queue is exactly the device-order filter of
the bels (pad type, real package pin, unused), truncated at the
unconstrained-pad count; unconstrained pads are bound in discovery order
to the queued sites in queue order, and the whole assignment is a pure
function of the inputs. -/
theorem pack_io_queue_deterministic_binding (d : Device) (used : List Nat) (ps : List CellM)
    (hle : cntUnconstr ps ≤ (d.bels.filter (belOk d used)).length) :
    buildQueue d used (cntUnconstr ps) = (d.bels.filter (belOk d used)).take (cntUnconstr ps) ∧
    ∃ r, bindUnconstrained d ps (buildQueue d used (cntUnconstr ps)) = some r ∧
      r.length = ps.length ∧
      (∀ (i : Nat) (hi : i < ps.length) (hi2 : i < r.length),
        (alookup (ps.get ⟨i, hi⟩).attrs "BEL").isSome = true →
        r.get ⟨i, hi2⟩ = ps.get ⟨i, hi⟩) ∧
      newBelAttrs ps r =
        ((d.bels.filter (belOk d used)).take (cntUnconstr ps)).map d.nameOfBel := by
  have hq := buildQueue_eq d used (cntUnconstr ps)
  refine ⟨hq, ?_⟩
  have hlen : cntUnconstr ps ≤ (buildQueue d used (cntUnconstr ps)).length := by
    rw [hq, List.length_take]
    exact le_min le_rfl hle
  obtain ⟨r, hr⟩ := bindUnconstrained_some d ps _ hlen
  refine ⟨r, hr, bindUnconstrained_length d ps _ r hr,
    bindUnconstrained_get_constrained d ps _ r hr, ?_⟩
  have hnew := bindUnconstrained_newBelAttrs d ps _ r hr
  rw [hnew, hq, List.take_take]
  simp

/-- Device of the C7 witness: three compatible bels. -/
def dC7 : Device :=
  { bels := [0, 1, 2], belType := fun _ => "IOB_PAD",
    belPackagePin := fun b => if b = 2 then "." else "A1",
    nameOfBel := fun b => if b = 0 then "B0" else "B1", belByName := fun _ => 0,
    packagePinSite := fun _ => "" }

/-- Pads of the C7 witness: one already bound, one unconstrained. -/
def psC7 : List CellM :=
  [{ name := "pad_k", type := "PAD", ports := [], attrs := [("BEL", "Z9")] },
   { name := "pad_f", type := "PAD", ports := [], attrs := [] }]

/-- Witness for C7 at a concrete device and pad list. -/
theorem pack_io_queue_deterministic_binding_witness :
    cntUnconstr psC7 ≤ (dC7.bels.filter (belOk dC7 [])).length ∧
    (buildQueue dC7 [] (cntUnconstr psC7) =
        (dC7.bels.filter (belOk dC7 [])).take (cntUnconstr psC7) ∧
      ∃ r, bindUnconstrained dC7 psC7 (buildQueue dC7 [] (cntUnconstr psC7)) = some r ∧
        r.length = psC7.length ∧
        (∀ (i : Nat) (hi : i < psC7.length) (hi2 : i < r.length),
          (alookup (psC7.get ⟨i, hi⟩).attrs "BEL").isSome = true →
          r.get ⟨i, hi2⟩ = psC7.get ⟨i, hi⟩) ∧
        newBelAttrs psC7 r =
          ((dC7.bels.filter (belOk dC7 [])).take (cntUnconstr psC7)).map dC7.nameOfBel) :=
  ⟨by decide, pack_io_queue_deterministic_binding dC7 [] psC7 (by decide)⟩

/-- Claim C2 (amended): whenever `pack_io`'s site binding completes and
the bound-site attributes present after constraint resolution are
pairwise distinct (in particular, no two constrained pads resolve to the
same site), every pad ends the pass with exactly one bound-site
attribute and no two pads share a site. -/
theorem pack_io_site_uniqueness (d : Device) (pads ps' r : List CellM)
    (used : List Nat) (cnt : Nat)
    (hres : resolveConstraints d pads = Except.ok (ps', used, cnt))
    (hbind : bindUnconstrained d ps' (buildQueue d used cnt) = some r)
    (hnodup : d.bels.Nodup)
    (hname : ∀ b ∈ d.bels, d.belByName (d.nameOfBel b) = b)
    (hdistinct : (ps'.filterMap (fun p => alookup p.attrs "BEL")).Nodup)
    (hkeys : ∀ p ∈ pads, countKey p.attrs "BEL" ≤ 1) :
    pack_io d pads = IOResult.ok r ∧
    r.length = pads.length ∧
    (∀ p ∈ r, countKey p.attrs "BEL" = 1) ∧
    (r.filterMap (fun p => alookup p.attrs "BEL")).Nodup := by
  have hq := buildQueue_eq d used cnt
  have hqsub : (buildQueue d used cnt).Sublist d.bels := by
    rw [hq]
    exact (List.take_sublist _ _).trans (List.filter_sublist _)
  have hqmem : ∀ b ∈ buildQueue d used cnt, b ∈ d.bels := fun b hb => hqsub.subset hb
  have hqnodup : (buildQueue d used cnt).Nodup := hnodup.sublist hqsub
  have hqok : ∀ b ∈ buildQueue d used cnt, belOk d used b = true := by
    rw [hq]
    intro b hb
    exact List.of_mem_filter (List.mem_of_mem_take hb)
  have hqnotused : ∀ b ∈ buildQueue d used cnt, b ∉ used := by
    intro b hb
    have hok := hqok b hb
    simp [belOk] at hok
    exact hok.2
  have h3 : ∀ b ∈ buildQueue d used cnt,
      d.nameOfBel b ∉ ps'.filterMap (fun p => alookup p.attrs "BEL") := by
    intro b hb hmem
    have hu := resolveConstraints_used d pads ps' used cnt hres _ hmem
    rw [hname b (hqmem b hb)] at hu
    exact hqnotused b hb hu
  have h4 : ∀ b b2, b ∈ buildQueue d used cnt → b2 ∈ buildQueue d used cnt →
      d.nameOfBel b = d.nameOfBel b2 → b = b2 := by
    intro b b2 hb hb2 he
    have hc := congrArg d.belByName he
    rw [hname b (hqmem b hb), hname b2 (hqmem b2 hb2)] at hc
    exact hc
  refine ⟨by simp [pack_io, hres, hbind], ?_, ?_, ?_⟩
  · rw [bindUnconstrained_length d ps' _ r hbind,
      resolveConstraints_length d pads ps' used cnt hres]
  · exact bindUnconstrained_count d ps' _ r hbind
      (resolveConstraints_count d pads ps' used cnt hres hkeys)
  · exact bindUnconstrained_nodup d ps' _ r hbind hdistinct hqnodup h3 h4

/-- Device of the C2 witness: two compatible bels with injective naming,
pin `P1` resolving to site `S1`. -/
def dC2b : Device :=
  { bels := [0, 1], belType := fun _ => "IOB_PAD", belPackagePin := fun _ => "A1",
    nameOfBel := fun b => if b = 0 then "B0" else "B1",
    belByName := fun s => if s = "B0" then 0 else if s = "B1" then 1 else 7,
    packagePinSite := fun loc => if loc = "P1" then "S1" else "" }

/-- Pads of the C2 witness: one constrained to `P1`, one unconstrained. -/
def padsC2b : List CellM :=
  [{ name := "pad_l", type := "PAD", ports := [], attrs := [("LOC", "P1")] },
   { name := "pad_f", type := "PAD", ports := [], attrs := [] }]

/-- The C2 witness pads after constraint resolution. -/
def psC2b : List CellM :=
  [{ name := "pad_l", type := "PAD", ports := [], attrs := [("LOC", "P1"), ("BEL", "S1/PAD")] },
   { name := "pad_f", type := "PAD", ports := [], attrs := [] }]

/-- The C2 witness pads after the whole binding. -/
def rC2b : List CellM :=
  [{ name := "pad_l", type := "PAD", ports := [], attrs := [("LOC", "P1"), ("BEL", "S1/PAD")] },
   { name := "pad_f", type := "PAD", ports := [], attrs := [("BEL", "B0")] }]

/-- Witness for the amended C2 at a concrete device and pad list. -/
theorem pack_io_site_uniqueness_witness :
    resolveConstraints dC2b padsC2b = Except.ok (psC2b, [7], 1) ∧
    bindUnconstrained dC2b psC2b (buildQueue dC2b [7] 1) = some rC2b ∧
    (pack_io dC2b padsC2b = IOResult.ok rC2b ∧
      rC2b.length = padsC2b.length ∧
      (∀ p ∈ rC2b, countKey p.attrs "BEL" = 1) ∧
      (rC2b.filterMap (fun p => alookup p.attrs "BEL")).Nodup) :=
  ⟨rfl, rfl,
    pack_io_site_uniqueness dC2b padsC2b psC2b rC2b [7] 1 rfl rfl
      (by decide) (by decide) (by decide) (by decide)⟩

/-- Environment of the C6 counterexample: net `n` has exactly one user, a
pad-typed cell carrying no `BEL` attribute. -/
def envC6 : DecEnv :=
  { users := fun n => if n = "n" then [{ cellType := "PAD", cellAttrs := [] }] else [],
    belSite := fun s => if s = "" then "SITE_DEFAULT" else "X" }

/-- Macro of the C6 counterexample: a plain `IBUF` whose pad net is `n`. -/
def mC6 : CellM :=
  { name := "ib", type := "IBUF",
    ports := [("I", { dir := PortType.PORT_IN, net := some "n" }),
              ("O", { dir := PortType.PORT_OUT, net := some "o" })],
    attrs := [] }

/-- Claim C6 counterexample: the only pad-typed user of the pad net
carries no resolved site attribute, so by the claim the pass should
abort; instead `decompose_iob` accepts it, reading the absent attribute
as the empty string and resolving a site from it. -/
theorem pad_site_ignores_missing_bel_attr :
    (∀ u ∈ envC6.users "n", alookup u.cellAttrs "BEL" = none) ∧
    pad_site envC6 "n" = Except.ok "SITE_DEFAULT" ∧
    decompose_iob envC6 mC6 true "" =
      Except.ok
        ({ name := "ib", type := "IBUF",
           ports := [("I", { dir := PortType.PORT_IN, net := none }),
                     ("O", { dir := PortType.PORT_OUT, net := none })],
           attrs := [] },
         [{ name := "ib$IBUF", type := "IBUF",
            ports := [("I", { dir := PortType.PORT_IN, net := some "n" }),
                      ("O", { dir := PortType.PORT_OUT, net := some "o" })],
            attrs := [("BEL", "SITE_DEFAULT/IOB33/INBUF_EN")] }]) :=
  ⟨by decide, rfl, rfl⟩

/-- Claim C6 (amended): when decompose_iob locates the external pad net
of a bidirectional macro it scans the net's users for the first cell of
the pad type, regardless of any site attribute (an absent attribute is
read as the empty string); only when no pad-typed user exists at all does
it abort the pass fatally with an error naming the net. -/
theorem decompose_iob_missing_pad_aborts (env : DecEnv) (m : CellM) (pn : String)
    (hty : m.type ∈ iobufTypes) (hio : get_net_or_empty m "IO" = some pn) :
    ((env.users pn).find? (fun u => u.cellType == "PAD") = none →
      ∀ (hr : Bool) (ios : String),
        decompose_iob env m hr ios = Except.error ("can't find PAD for net " ++ pn)) ∧
    (∀ u, (env.users pn).find? (fun u => u.cellType == "PAD") = some u →
      pad_site env pn = Except.ok (env.belSite ((alookup u.cellAttrs "BEL").getD ""))) := by
  constructor
  · intro hnone hr ios
    have hps : pad_site env pn = Except.error ("can't find PAD for net " ++ pn) := by
      simp [pad_site, hnone]
    simp [iobufTypes] at hty
    rcases hty with h | h | h <;>
      · simp [decompose_iob, ibufTypes, iobufTypes, obufTypes, h, hio, hps, Except.bind]
        rfl
  · intro u hu
    simp [pad_site, hu]

/-- Environment of the C6 witness: no net has any user. -/
def envW6 : DecEnv := { users := fun _ => [], belSite := fun _ => "S" }

/-- Macro of the C6 witness: an `IOBUF` whose pad net `w` has no users. -/
def mW6 : CellM :=
  { name := "bw", type := "IOBUF",
    ports := [("IO", { dir := PortType.PORT_INOUT, net := some "w" })], attrs := [] }

/-- Witness for the amended C6 at a concrete environment and macro. -/
theorem decompose_iob_missing_pad_aborts_witness :
    mW6.type ∈ iobufTypes ∧ get_net_or_empty mW6 "IO" = some "w" ∧
    decompose_iob envW6 mW6 true "x" = Except.error ("can't find PAD for net " ++ "w") :=
  ⟨by decide, rfl,
    (decompose_iob_missing_pad_aborts envW6 mW6 "w" (by decide) rfl).1 rfl true "x"⟩

/-- A bidirectional I/O macro with the full XC7 port set (`I`, `O`, `IO`,
`T`, `IBUFDISABLE`, `INTERMDISABLE`, `DCITERMDISABLE`), the pad net on
`IO`, and arbitrary directions/nets elsewhere, as library `IOBUF*` cells
have. -/
def mkBidirMacro (nm ty pn : String) (dI dO dIO dT dIBD dITD dDCI : PortType)
    (iN oN tN ibdN itdN dciN : Option String) (ats : List (String × String)) : CellM :=
  { name := nm, type := ty,
    ports := [("I", { dir := dI, net := iN }),
              ("O", { dir := dO, net := oN }),
              ("IO", { dir := dIO, net := some pn }),
              ("T", { dir := dT, net := tN }),
              ("IBUFDISABLE", { dir := dIBD, net := ibdN }),
              ("INTERMDISABLE", { dir := dITD, net := itdN }),
              ("DCITERMDISABLE", { dir := dDCI, net := dciN })],
    attrs := ats }

/-- A single-ended input macro with the library port set of `IBUF*`
cells, the pad net on `I`. -/
def mkIbufMacro (nm ty pn : String) (dI dO dIBD dITD : PortType)
    (oN ibdN itdN : Option String) (ats : List (String × String)) : CellM :=
  { name := nm, type := ty,
    ports := [("I", { dir := dI, net := some pn }),
              ("O", { dir := dO, net := oN }),
              ("IBUFDISABLE", { dir := dIBD, net := ibdN }),
              ("INTERMDISABLE", { dir := dITD, net := itdN })],
    attrs := ats }

/-- A single-ended output macro with the library port set of
`OBUF`/`OBUFT` cells, the pad net on `O`. -/
def mkObufMacro (nm ty pn : String) (dI dO dT dDCI : PortType)
    (iN tN dciN : Option String) (ats : List (String × String)) : CellM :=
  { name := nm, type := ty,
    ports := [("I", { dir := dI, net := iN }),
              ("O", { dir := dO, net := some pn }),
              ("T", { dir := dT, net := tN }),
              ("DCITERMDISABLE", { dir := dDCI, net := dciN })],
    attrs := ats }

theorem except_bind_ok {ε α β : Type} (a : α) (f : α → Except ε β) :
    (Except.ok a : Except ε α) >>= f = f a := rfl

theorem except_bind_err {ε α β : Type} (e : ε) (f : α → Except ε β) :
    (Except.error e : Except ε α) >>= f = Except.error e := rfl

/-- The `IBUF` variant selected for the input half of a macro
(lines 89-93). -/
def ibufTypeOf (ty : String) : String :=
  if ty == "IBUF_IBUFDISABLE" || ty == "IOBUF_DCIEN" then "IBUF_IBUFDISABLE"
  else if ty == "IBUF_INTERMDISABLE" || ty == "IOBUF_INTERMDISABLE" then "IBUF_INTERMDISABLE"
  else "IBUF"

/-- The output-buffer type selected for the output half of a
bidirectional macro (line 113). -/
def obufTypeOf (ty : String) : String :=
  if ty == "IOBUF_DCIEN" then "OBUFT_DCIEN" else "OBUFT"

/-- The macro cell left behind by decomposing a bidirectional macro: pad,
output and auxiliary connections moved off, `I` and `T` merely read. -/
def bidirResidual (nm ty : String) (dI dO dIO dT dIBD dITD dDCI : PortType)
    (iN tN : Option String) (ats : List (String × String)) : CellM :=
  { name := nm, type := ty,
    ports := [("I", { dir := dI, net := iN }),
              ("O", { dir := dO, net := none }),
              ("IO", { dir := dIO, net := none }),
              ("T", { dir := dT, net := tN }),
              ("IBUFDISABLE", { dir := dIBD, net := none }),
              ("INTERMDISABLE", { dir := dITD, net := none }),
              ("DCITERMDISABLE", { dir := dDCI, net := none })],
    attrs := ats }

/-- The input sub-cell created for a bidirectional macro, before
provenance metadata. -/
def bidirInbuf (nm ibt site pn : String) (dIBD dITD : PortType)
    (oN ibdN itdN : Option String) : CellM :=
  { name := nm ++ "$" ++ "IBUF", type := ibt,
    ports := [("I", { dir := PortType.PORT_IN, net := some pn }),
              ("O", { dir := PortType.PORT_OUT, net := oN }),
              ("IBUFDISABLE", { dir := dIBD, net := ibdN }),
              ("INTERMDISABLE", { dir := dITD, net := itdN })],
    attrs := [("BEL", site ++ "/IOB33/INBUF_EN")] }

/-- The output sub-cell created for a bidirectional macro, before
provenance metadata. -/
def bidirObuf (nm obt site pn : String) (dDCI : PortType)
    (iN tN dciN : Option String) : CellM :=
  { name := nm ++ "$" ++ "OBUFT", type := obt,
    ports := [("I", { dir := PortType.PORT_IN, net := iN }),
              ("O", { dir := PortType.PORT_OUT, net := some pn }),
              ("T", { dir := PortType.PORT_IN, net := tN }),
              ("DCITERMDISABLE", { dir := dDCI, net := dciN })],
    attrs := [("BEL", site ++ "/IOB33/OUTBUF")] }

theorem decompose_iob_bidir_eq (env : DecEnv) (nm ty pn site : String)
    (dI dO dIO dT dIBD dITD dDCI : PortType) (iN oN tN ibdN itdN dciN : Option String)
    (ats : List (String × String)) (hr : Bool) (ios : String)
    (hty : ty ∈ iobufTypes) (hsite : pad_site env pn = Except.ok site) :
    decompose_iob env
        (mkBidirMacro nm ty pn dI dO dIO dT dIBD dITD dDCI iN oN tN ibdN itdN dciN ats)
        hr ios =
      Except.ok (bidirResidual nm ty dI dO dIO dT dIBD dITD dDCI iN tN ats,
        [addMeta ty
            (mkBidirMacro nm ty pn dI dO dIO dT dIBD dITD dDCI iN oN tN ibdN itdN dciN ats).ports
            (bidirInbuf nm (ibufTypeOf ty) site pn dIBD dITD oN ibdN itdN),
         addMeta ty
            (mkBidirMacro nm ty pn dI dO dIO dT dIBD dITD dDCI iN oN tN ibdN itdN dciN ats).ports
            (bidirObuf nm (obufTypeOf ty) site pn dDCI iN tN dciN)]) := by
  simp only [iobufTypes, List.mem_cons, List.mem_singleton, List.not_mem_nil, or_false] at hty
  rcases hty with h | h | h <;> subst h <;>
    simp [decompose_iob, mkBidirMacro, get_net_or_empty, alookup, disconnect_port, aset,
      insert_ibuf, insert_obuf, int_name, setCellAttr, replace_port, hsite,
      ibufTypes, iobufTypes, obufTypes, ibufTypeOf, obufTypeOf,
      bidirResidual, bidirInbuf, bidirObuf, except_bind_ok, except_bind_err]

theorem macro_ports_key_inj (a b : String)
    (h : ("X_MACRO_PORTS_" ++ a) = ("X_MACRO_PORTS_" ++ b)) : a = b := by
  have hd := congrArg String.data h
  rw [String.data_append, String.data_append] at hd
  exact String.ext (List.append_cancel_left hd)

theorem macro_ports_key_ne_bel (a : String) : ("X_MACRO_PORTS_" ++ a) ≠ "BEL" := by
  intro h
  have hl := congrArg String.length h
  rw [String.length_append] at hl
  have h14 : ("X_MACRO_PORTS_" : String).length = 14 := by decide
  have h3 : ("BEL" : String).length = 3 := by decide
  omega

theorem macro_ports_key_ne_orig (a : String) :
    ("X_MACRO_PORTS_" ++ a) ≠ "X_ORIG_MACRO_PRIM" := by
  intro h
  have hd := congrArg String.data h
  rw [String.data_append] at hd
  have h2 : ("X_MACRO_PORTS_".data ++ a.data)[2]? = ("X_ORIG_MACRO_PRIM" : String).data[2]? := by
    rw [hd]
  rw [List.getElem?_append_left (by decide)] at h2
  revert h2
  decide

theorem portMetaStep_ports (orig : List (String × PortData)) (c : CellM)
    (p : String × PortData) : (portMetaStep orig c p).ports = c.ports := by
  simp only [portMetaStep, setCellAttr]
  split <;> rfl

theorem portMetaFold_ports (orig : List (String × PortData)) :
    ∀ (l : List (String × PortData)) (c : CellM),
      (l.foldl (portMetaStep orig) c).ports = c.ports := by
  intro l
  induction l with
  | nil => intro c; rfl
  | cons p rest ih =>
    intro c
    rw [List.foldl_cons, ih, portMetaStep_ports]

theorem addMeta_ports (t : String) (orig : List (String × PortData)) (sc : CellM) :
    (addMeta t orig sc).ports = sc.ports := by
  simp only [addMeta, addPortMeta, setCellAttr]
  rw [portMetaFold_ports]

theorem portMetaFold_lookup_other (orig : List (String × PortData)) :
    ∀ (l : List (String × PortData)) (c : CellM) (k : String),
      (∀ pp ∈ l, ("X_MACRO_PORTS_" ++ pp.1) ≠ k) →
      alookup ((l.foldl (portMetaStep orig) c).attrs) k = alookup c.attrs k := by
  intro l
  induction l with
  | nil => intro c k _; rfl
  | cons p rest ih =>
    intro c k hk
    rw [List.foldl_cons, ih _ _ (fun pp hpp => hk pp (by simp [hpp]))]
    simp only [portMetaStep, setCellAttr]
    split
    · rfl
    · exact alookup_aset_ne c.attrs _ (hk p (by simp))

theorem addMeta_lookup_bel (t : String) (orig : List (String × PortData)) (sc : CellM) :
    alookup (addMeta t orig sc).attrs "BEL" = alookup sc.attrs "BEL" := by
  simp only [addMeta, addPortMeta]
  rw [portMetaFold_lookup_other orig _ _ _ (fun pp _ => macro_ports_key_ne_bel pp.1)]
  simp only [setCellAttr]
  exact alookup_aset_ne sc.attrs _ (by decide)

theorem addMeta_lookup_orig (t : String) (orig : List (String × PortData)) (sc : CellM) :
    alookup (addMeta t orig sc).attrs "X_ORIG_MACRO_PRIM" = some t := by
  simp only [addMeta, addPortMeta]
  rw [portMetaFold_lookup_other orig _ _ _ (fun pp _ => macro_ports_key_ne_orig pp.1)]
  simp only [setCellAttr]
  exact alookup_aset_self sc.attrs _ _

/-- Claim C8: decomposing a bidirectional macro carrying both a tristate
net on `T` and a termination-disable net on `DCITERMDISABLE` routes the
tristate net to the output sub-cell's `T` input and moves the
termination-disable connection onto the output sub-cell only: the input
sub-cell has no such port and the macro's own port is left
disconnected. -/
theorem decompose_iob_tristate_dci_routing (env : DecEnv) (nm ty pn site tn dn : String)
    (dI dO dIO dT dIBD dITD dDCI : PortType) (iN oN ibdN itdN : Option String)
    (ats : List (String × String)) (hr : Bool) (ios : String)
    (hty : ty ∈ iobufTypes) (hsite : pad_site env pn = Except.ok site) :
    ∃ m2 i o,
      decompose_iob env
          (mkBidirMacro nm ty pn dI dO dIO dT dIBD dITD dDCI iN oN (some tn) ibdN itdN
            (some dn) ats)
          hr ios = Except.ok (m2, [i, o]) ∧
      get_net_or_empty o "T" = some tn ∧
      get_net_or_empty o "DCITERMDISABLE" = some dn ∧
      alookup i.ports "DCITERMDISABLE" = none ∧
      get_net_or_empty m2 "DCITERMDISABLE" = none := by
  refine ⟨_, _, _,
    decompose_iob_bidir_eq env nm ty pn site dI dO dIO dT dIBD dITD dDCI iN oN (some tn)
      ibdN itdN (some dn) ats hr ios hty hsite, ?_, ?_, ?_, ?_⟩
  · simp [get_net_or_empty, addMeta_ports, bidirObuf, alookup]
  · simp [get_net_or_empty, addMeta_ports, bidirObuf, alookup]
  · simp [addMeta_ports, bidirInbuf, alookup]
  · simp [get_net_or_empty, bidirResidual, alookup]

/-- Environment of the C8 witness: net `p8` is driven into a pad bound to
site `S8`. -/
def envW8 : DecEnv :=
  { users := fun n =>
      if n = "p8" then [{ cellType := "PAD", cellAttrs := [("BEL", "S8/PAD")] }] else [],
    belSite := fun s => if s = "S8/PAD" then "S8" else "" }

/-- Witness for C8 at a concrete environment and macro. -/
theorem decompose_iob_tristate_dci_routing_witness :
    "IOBUF_DCIEN" ∈ iobufTypes ∧ pad_site envW8 "p8" = Except.ok "S8" ∧
    (∃ m2 i o,
      decompose_iob envW8
          (mkBidirMacro "b8" "IOBUF_DCIEN" "p8" PortType.PORT_IN PortType.PORT_OUT
            PortType.PORT_INOUT PortType.PORT_IN PortType.PORT_IN PortType.PORT_IN
            PortType.PORT_IN (some "di") (some "do") (some "t8") none none (some "d8") [])
          false "LVCMOS33" = Except.ok (m2, [i, o]) ∧
      get_net_or_empty o "T" = some "t8" ∧
      get_net_or_empty o "DCITERMDISABLE" = some "d8" ∧
      alookup i.ports "DCITERMDISABLE" = none ∧
      get_net_or_empty m2 "DCITERMDISABLE" = none) :=
  ⟨by decide, rfl,
    decompose_iob_tristate_dci_routing envW8 "b8" "IOBUF_DCIEN" "p8" "S8" "t8" "d8"
      PortType.PORT_IN PortType.PORT_OUT PortType.PORT_INOUT PortType.PORT_IN
      PortType.PORT_IN PortType.PORT_IN PortType.PORT_IN (some "di") (some "do") none none
      [] false "LVCMOS33" (by decide) rfl⟩

/-- The macro cell left behind by decomposing a single-ended input macro:
every connection moved off or disconnected. -/
def ibufResidual (nm ty : String) (dI dO dIBD dITD : PortType)
    (ats : List (String × String)) : CellM :=
  { name := nm, type := ty,
    ports := [("I", { dir := dI, net := none }),
              ("O", { dir := dO, net := none }),
              ("IBUFDISABLE", { dir := dIBD, net := none }),
              ("INTERMDISABLE", { dir := dITD, net := none })],
    attrs := ats }

/-- The macro cell left behind by decomposing a single-ended output
macro: the pad and termination-disable connections moved off, `I` and `T`
merely read. -/
def obufResidual (nm ty : String) (dI dO dT dDCI : PortType) (iN tN : Option String)
    (ats : List (String × String)) : CellM :=
  { name := nm, type := ty,
    ports := [("I", { dir := dI, net := iN }),
              ("O", { dir := dO, net := none }),
              ("T", { dir := dT, net := tN }),
              ("DCITERMDISABLE", { dir := dDCI, net := none })],
    attrs := ats }

/-- The output sub-cell created for a single-ended output macro. -/
def obufSub (nm sfx obt site pn : String) (dDCI : PortType)
    (iN tN dciN : Option String) : CellM :=
  { name := nm ++ "$" ++ sfx, type := obt,
    ports := [("I", { dir := PortType.PORT_IN, net := iN }),
              ("O", { dir := PortType.PORT_OUT, net := some pn }),
              ("T", { dir := PortType.PORT_IN, net := tN }),
              ("DCITERMDISABLE", { dir := dDCI, net := dciN })],
    attrs := [("BEL", site ++ "/IOB33/OUTBUF")] }

theorem decompose_iob_ibuf_eq (env : DecEnv) (nm ty pn site : String)
    (dI dO dIBD dITD : PortType) (oN ibdN itdN : Option String)
    (ats : List (String × String)) (hr : Bool) (ios : String)
    (hty : ty ∈ ibufTypes) (hsite : pad_site env pn = Except.ok site) :
    decompose_iob env (mkIbufMacro nm ty pn dI dO dIBD dITD oN ibdN itdN ats) hr ios =
      Except.ok (ibufResidual nm ty dI dO dIBD dITD ats,
        [bidirInbuf nm (ibufTypeOf ty) site pn dIBD dITD oN ibdN itdN]) := by
  simp only [ibufTypes, List.mem_cons, List.mem_singleton, List.not_mem_nil, or_false] at hty
  rcases hty with h | h | h <;> subst h <;>
    simp [decompose_iob, mkIbufMacro, get_net_or_empty, alookup, disconnect_port, aset,
      insert_ibuf, int_name, setCellAttr, replace_port, hsite,
      ibufTypes, iobufTypes, obufTypes, ibufTypeOf,
      ibufResidual, bidirInbuf, except_bind_ok, except_bind_err]

theorem decompose_iob_obuf_eq (env : DecEnv) (nm ty pn site : String)
    (dI dO dT dDCI : PortType) (iN tN dciN : Option String)
    (ats : List (String × String)) (hr : Bool) (ios : String)
    (hty : ty ∈ obufTypes) (hsite : pad_site env pn = Except.ok site) :
    decompose_iob env (mkObufMacro nm ty pn dI dO dT dDCI iN tN dciN ats) hr ios =
      Except.ok (obufResidual nm ty dI dO dT dDCI iN tN ats,
        [obufSub nm (if ty == "OBUFT" then "OBUFT" else "OBUF") ty site pn dDCI
          iN tN dciN]) := by
  simp only [obufTypes, List.mem_cons, List.mem_singleton, List.not_mem_nil, or_false] at hty
  rcases hty with h | h <;> subst h <;>
    simp [decompose_iob, mkObufMacro, get_net_or_empty, alookup, disconnect_port, aset,
      insert_obuf, int_name, setCellAttr, replace_port, hsite,
      ibufTypes, iobufTypes, obufTypes,
      obufResidual, obufSub, except_bind_ok, except_bind_err]

/-- Claim C4: a bidirectional macro decomposes into exactly two
elementary sub-cells, an input buffer bound to `site + "/IOB33/INBUF_EN"`
and an output buffer bound to `site + "/IOB33/OUTBUF"` of the same parent
site; a single-ended macro yields exactly one sub-cell; and the sub-cell
connections, restricted to nets present on the macro, are exactly the
macro's original connections. -/
theorem decompose_iob_shape_connections (env : DecEnv) (hr : Bool) (ios : String) :
    (∀ (nm ty pn site : String) (dI dO dIO dT dIBD dITD dDCI : PortType)
        (iN oN tN ibdN itdN dciN : Option String) (ats : List (String × String)),
      ty ∈ iobufTypes → pad_site env pn = Except.ok site →
      ∃ m2 i o,
        decompose_iob env
            (mkBidirMacro nm ty pn dI dO dIO dT dIBD dITD dDCI iN oN tN ibdN itdN dciN ats)
            hr ios = Except.ok (m2, [i, o]) ∧
        alookup i.attrs "BEL" = some (site ++ "/IOB33/INBUF_EN") ∧
        alookup o.attrs "BEL" = some (site ++ "/IOB33/OUTBUF") ∧
        (∀ n : String,
          ((∃ pp ∈ i.ports ++ o.ports, pp.2.net = some n) ∧
            (∃ pp ∈ (mkBidirMacro nm ty pn dI dO dIO dT dIBD dITD dDCI iN oN tN ibdN itdN
              dciN ats).ports, pp.2.net = some n)) ↔
          (∃ pp ∈ (mkBidirMacro nm ty pn dI dO dIO dT dIBD dITD dDCI iN oN tN ibdN itdN
            dciN ats).ports, pp.2.net = some n))) ∧
    (∀ (nm ty pn site : String) (dI dO dIBD dITD : PortType)
        (oN ibdN itdN : Option String) (ats : List (String × String)),
      ty ∈ ibufTypes → pad_site env pn = Except.ok site →
      ∃ m2 c,
        decompose_iob env (mkIbufMacro nm ty pn dI dO dIBD dITD oN ibdN itdN ats) hr ios =
          Except.ok (m2, [c]) ∧
        alookup c.attrs "BEL" = some (site ++ "/IOB33/INBUF_EN") ∧
        (∀ n : String,
          ((∃ pp ∈ c.ports, pp.2.net = some n) ∧
            (∃ pp ∈ (mkIbufMacro nm ty pn dI dO dIBD dITD oN ibdN itdN ats).ports,
              pp.2.net = some n)) ↔
          (∃ pp ∈ (mkIbufMacro nm ty pn dI dO dIBD dITD oN ibdN itdN ats).ports,
            pp.2.net = some n))) ∧
    (∀ (nm ty pn site : String) (dI dO dT dDCI : PortType)
        (iN tN dciN : Option String) (ats : List (String × String)),
      ty ∈ obufTypes → pad_site env pn = Except.ok site →
      ∃ m2 c,
        decompose_iob env (mkObufMacro nm ty pn dI dO dT dDCI iN tN dciN ats) hr ios =
          Except.ok (m2, [c]) ∧
        alookup c.attrs "BEL" = some (site ++ "/IOB33/OUTBUF") ∧
        (∀ n : String,
          ((∃ pp ∈ c.ports, pp.2.net = some n) ∧
            (∃ pp ∈ (mkObufMacro nm ty pn dI dO dT dDCI iN tN dciN ats).ports,
              pp.2.net = some n)) ↔
          (∃ pp ∈ (mkObufMacro nm ty pn dI dO dT dDCI iN tN dciN ats).ports,
            pp.2.net = some n))) := by
  refine ⟨?_, ?_, ?_⟩
  · intro nm ty pn site dI dO dIO dT dIBD dITD dDCI iN oN tN ibdN itdN dciN ats hty hsite
    refine ⟨_, _, _,
      decompose_iob_bidir_eq env nm ty pn site dI dO dIO dT dIBD dITD dDCI iN oN tN ibdN
        itdN dciN ats hr ios hty hsite, ?_, ?_, ?_⟩
    · rw [addMeta_lookup_bel]
      simp [bidirInbuf, alookup]
    · rw [addMeta_lookup_bel]
      simp [bidirObuf, alookup]
    · intro n
      constructor
      · rintro ⟨_, hb⟩
        exact hb
      · intro hb
        refine ⟨?_, hb⟩
        rw [addMeta_ports, addMeta_ports]
        simp [mkBidirMacro, bidirInbuf, bidirObuf] at hb ⊢
        tauto
  · intro nm ty pn site dI dO dIBD dITD oN ibdN itdN ats hty hsite
    refine ⟨_, _,
      decompose_iob_ibuf_eq env nm ty pn site dI dO dIBD dITD oN ibdN itdN ats hr ios
        hty hsite, ?_, ?_⟩
    · simp [bidirInbuf, alookup]
    · intro n
      constructor
      · rintro ⟨_, hb⟩
        exact hb
      · intro hb
        refine ⟨?_, hb⟩
        simp [mkIbufMacro, bidirInbuf] at hb ⊢
        tauto
  · intro nm ty pn site dI dO dT dDCI iN tN dciN ats hty hsite
    refine ⟨_, _,
      decompose_iob_obuf_eq env nm ty pn site dI dO dT dDCI iN tN dciN ats hr ios
        hty hsite, ?_, ?_⟩
    · simp [obufSub, alookup]
    · intro n
      constructor
      · rintro ⟨_, hb⟩
        exact hb
      · intro hb
        refine ⟨?_, hb⟩
        simp [mkObufMacro, obufSub] at hb ⊢
        tauto

/-- Environment of the C4 witness: net `p4` feeds a pad bound to site
`S4`. -/
def envW4 : DecEnv :=
  { users := fun n =>
      if n = "p4" then [{ cellType := "PAD", cellAttrs := [("BEL", "S4/PAD")] }] else [],
    belSite := fun s => if s = "S4/PAD" then "S4" else "" }

/-- Witness for C4 at a concrete environment and a concrete `IOBUF`. -/
theorem decompose_iob_shape_connections_witness :
    "IOBUF" ∈ iobufTypes ∧ pad_site envW4 "p4" = Except.ok "S4" ∧
    (∃ m2 i o,
      decompose_iob envW4
          (mkBidirMacro "b4" "IOBUF" "p4" PortType.PORT_IN PortType.PORT_OUT
            PortType.PORT_INOUT PortType.PORT_IN PortType.PORT_IN PortType.PORT_IN
            PortType.PORT_IN (some "di") (some "do") (some "t4") none none none [])
          true "" = Except.ok (m2, [i, o]) ∧
      alookup i.attrs "BEL" = some ("S4" ++ "/IOB33/INBUF_EN") ∧
      alookup o.attrs "BEL" = some ("S4" ++ "/IOB33/OUTBUF") ∧
      (∀ n : String,
        ((∃ pp ∈ i.ports ++ o.ports, pp.2.net = some n) ∧
          (∃ pp ∈ (mkBidirMacro "b4" "IOBUF" "p4" PortType.PORT_IN PortType.PORT_OUT
            PortType.PORT_INOUT PortType.PORT_IN PortType.PORT_IN PortType.PORT_IN
            PortType.PORT_IN (some "di") (some "do") (some "t4") none none none []).ports,
            pp.2.net = some n)) ↔
        (∃ pp ∈ (mkBidirMacro "b4" "IOBUF" "p4" PortType.PORT_IN PortType.PORT_OUT
          PortType.PORT_INOUT PortType.PORT_IN PortType.PORT_IN PortType.PORT_IN
          PortType.PORT_IN (some "di") (some "do") (some "t4") none none none []).ports,
          pp.2.net = some n))) :=
  ⟨by decide, rfl,
    (decompose_iob_shape_connections envW4 true "").1 "b4" "IOBUF" "p4" "S4"
      PortType.PORT_IN PortType.PORT_OUT PortType.PORT_INOUT PortType.PORT_IN
      PortType.PORT_IN PortType.PORT_IN PortType.PORT_IN (some "di") (some "do")
      (some "t4") none none none [] (by decide) rfl⟩

/-- Split a character list at every occurrence of a separator (the
groups, separators dropped; parsing counterpart of the serializer's `;`
and `,` joins). -/
def splitOnCh (c : Char) : List Char → List (List Char)
  | [] => [[]]
  | a :: rest =>
    let r := splitOnCh c rest
    if a = c then [] :: r
    else (a :: r.headD []) :: r.tail

/-- The parser of the provenance attribute: split entries at `;`, then
each entry at `,` into `(portName, direction)`. -/
def parseMacroPorts (s : String) : List (String × String) :=
  (splitOnCh ';' s.data).map
    (fun e =>
      match splitOnCh ',' e with
      | [n2, d2] => (String.mk n2, String.mk d2)
      | _ => ("", ""))

theorem splitOnCh_not_mem (c : Char) : ∀ (l : List Char), c ∉ l → splitOnCh c l = [l] := by
  intro l
  induction l with
  | nil => intro _; rfl
  | cons a rest ih =>
    intro h
    have ha : ¬a = c := fun he => h (by simp [he])
    have hr : c ∉ rest := fun hm => h (by simp [hm])
    simp [splitOnCh, ha, ih hr]

theorem splitOnCh_append (c : Char) :
    ∀ (l1 l2 : List Char), c ∉ l1 →
      splitOnCh c (l1 ++ c :: l2) = l1 :: splitOnCh c l2 := by
  intro l1
  induction l1 with
  | nil => intro l2 _; simp [splitOnCh]
  | cons a rest ih =>
    intro l2 h
    have ha : ¬a = c := fun he => h (by simp [he])
    have hr : c ∉ rest := fun hm => h (by simp [hm])
    simp [splitOnCh, ha, ih l2 hr]

/-- The character-level form of one serialized entry. -/
def entryChars (nm : String) (d : PortType) : List Char :=
  nm.data ++ ',' :: ((dirStr d).data ++ [';'])

theorem macroPortEntry_data (o : String × PortData) :
    (macroPortEntry o).data = entryChars o.1 o.2.dir := by
  simp [macroPortEntry, entryChars, String.data_append]

theorem foldl_append_data :
    ∀ (l : List String) (a : String),
      (l.foldl (fun x y => x ++ y) a).data = a.data ++ (l.map String.data).flatten := by
  intro l
  induction l with
  | nil => intro a; simp
  | cons s rest ih =>
    intro a
    rw [List.foldl_cons, ih, List.map_cons, List.flatten_cons, String.data_append,
      List.append_assoc]

theorem macroPortsStr_data (orig : List (String × PortData)) (pnet : Option String) :
    (macroPortsStr orig pnet).data =
      ((macroMatches orig pnet).map (fun o => entryChars o.1 o.2.dir)).flatten := by
  rw [macroPortsStr, foldl_append_data]
  simp [List.map_map, Function.comp_def, macroPortEntry_data]

theorem entryChars_ne_nil (nm : String) (d : PortType) : entryChars nm d ≠ [] := by
  simp [entryChars]

theorem entry_flatten_ne_nil (ms : List (String × PortData)) (hne : ms ≠ []) :
    (ms.map (fun o => entryChars o.1 o.2.dir)).flatten ≠ [] := by
  cases ms with
  | nil => exact absurd rfl hne
  | cons m rest =>
    rw [List.map_cons, List.flatten_cons]
    simp [entryChars]

theorem macroPortsStr_empty_iff (orig : List (String × PortData)) (pnet : Option String) :
    macroPortsStr orig pnet = "" ↔ macroMatches orig pnet = [] := by
  constructor
  · intro h
    by_contra hne
    have hd := congrArg String.data h
    rw [macroPortsStr_data] at hd
    exact entry_flatten_ne_nil _ hne (by simpa using hd)
  · intro h
    apply String.ext
    rw [macroPortsStr_data, h]
    rfl

theorem dir_chars_ok (d : PortType) : ';' ∉ (dirStr d).data ∧ ',' ∉ (dirStr d).data := by
  cases d <;> simp [dirStr]

theorem parse_flatten :
    ∀ (ms : List (String × PortData)), ms ≠ [] →
      (∀ m ∈ ms, ';' ∉ m.1.data ∧ ',' ∉ m.1.data) →
      (splitOnCh ';' ((ms.map (fun o => entryChars o.1 o.2.dir)).flatten.dropLast)).map
        (fun e =>
          match splitOnCh ',' e with
          | [n2, d2] => (String.mk n2, String.mk d2)
          | _ => ("", "")) =
      ms.map (fun m => (m.1, dirStr m.2.dir)) := by
  intro ms
  induction ms with
  | nil => intro h; exact absurd rfl h
  | cons m rest ih =>
    intro _ hg
    have hgm := hg m (by simp)
    have hdir := dir_chars_ok m.2.dir
    have hsemi1 : ';' ∉ m.1.data ++ ',' :: (dirStr m.2.dir).data := by
      simp [hgm.1, hdir.1]
    have hentry :
        splitOnCh ',' (m.1.data ++ ',' :: (dirStr m.2.dir).data) =
          [m.1.data, (dirStr m.2.dir).data] := by
      rw [splitOnCh_append ',' m.1.data _ hgm.2, splitOnCh_not_mem ',' _ hdir.2]
    by_cases hr : rest = []
    · subst hr
      rw [List.map_cons, List.map_nil, List.flatten_cons, List.flatten_nil, List.append_nil]
      have hshape : entryChars m.1 m.2.dir =
          (m.1.data ++ ',' :: (dirStr m.2.dir).data) ++ [';'] := by
        simp [entryChars]
      rw [hshape, List.dropLast_concat, splitOnCh_not_mem ';' _ hsemi1]
      rw [List.map_cons, List.map_nil, hentry]
      simp
    · rw [List.map_cons, List.flatten_cons]
      have hfl : (rest.map (fun o => entryChars o.1 o.2.dir)).flatten ≠ [] :=
        entry_flatten_ne_nil rest hr
      rw [List.dropLast_append_of_ne_nil _ hfl]
      have hshape : entryChars m.1 m.2.dir ++
            (rest.map (fun o => entryChars o.1 o.2.dir)).flatten.dropLast =
          (m.1.data ++ ',' :: (dirStr m.2.dir).data) ++
            ';' :: (rest.map (fun o => entryChars o.1 o.2.dir)).flatten.dropLast := by
        simp [entryChars]
      rw [hshape, splitOnCh_append ';' _ _ hsemi1]
      rw [List.map_cons, hentry, List.map_cons]
      have := ih hr (fun x hx => hg x (by simp [hx]))
      rw [this]

/-- Round-trip of the provenance serializer: parsing the stored string
recovers the matching original ports with their directions, whenever the
port names avoid the separator characters. -/
theorem parse_macroPortsStr (orig : List (String × PortData)) (pnet : Option String)
    (hne : macroMatches orig pnet ≠ [])
    (hg : ∀ m ∈ macroMatches orig pnet, ';' ∉ m.1.data ∧ ',' ∉ m.1.data) :
    parseMacroPorts (eraseLast (macroPortsStr orig pnet)) =
      (macroMatches orig pnet).map (fun m => (m.1, dirStr m.2.dir)) := by
  have hdata : (eraseLast (macroPortsStr orig pnet)).data =
      ((macroMatches orig pnet).map (fun o => entryChars o.1 o.2.dir)).flatten.dropLast := by
    rw [eraseLast]
    show (macroPortsStr orig pnet).data.dropLast = _
    rw [macroPortsStr_data]
  rw [parseMacroPorts, hdata]
  exact parse_flatten _ hne hg

theorem portMetaFold_lookup (orig : List (String × PortData)) :
    ∀ (l : List (String × PortData)) (c : CellM),
      (l.map Prod.fst).Nodup →
      ∀ pp ∈ l,
        alookup ((l.foldl (portMetaStep orig) c).attrs) ("X_MACRO_PORTS_" ++ pp.1) =
          if macroPortsStr orig pp.2.net = ""
          then alookup c.attrs ("X_MACRO_PORTS_" ++ pp.1)
          else some (eraseLast (macroPortsStr orig pp.2.net)) := by
  intro l
  induction l with
  | nil => intro c _ pp hpp; simp at hpp
  | cons q rest ih =>
    intro c hnd pp hpp
    rw [List.map_cons, List.nodup_cons] at hnd
    rw [List.foldl_cons]
    cases List.mem_cons.mp hpp with
    | inl heq =>
      subst heq
      rw [portMetaFold_lookup_other orig rest _ _ ?_]
      · simp only [portMetaStep]
        split
        · simp [*]
        · simp [setCellAttr, alookup_aset_self, *]
      · intro rr hrr hcontra
        exact hnd.1 (macro_ports_key_inj rr.1 pp.1 hcontra ▸ List.mem_map_of_mem Prod.fst hrr)
    | inr hmem =>
      have hne2 : q.1 ≠ pp.1 := by
        intro hcontra
        exact hnd.1 (hcontra ▸ List.mem_map_of_mem Prod.fst hmem)
      have hstep : alookup ((portMetaStep orig c q).attrs) ("X_MACRO_PORTS_" ++ pp.1) =
          alookup c.attrs ("X_MACRO_PORTS_" ++ pp.1) := by
        simp only [portMetaStep]
        split
        · rfl
        · exact alookup_aset_ne _ _ (fun h => hne2 (macro_ports_key_inj q.1 pp.1 h))
      rw [ih _ hnd.2 pp hmem, hstep]

theorem addMeta_lookup_port (t : String) (orig : List (String × PortData)) (sc : CellM)
    (hnd : (sc.ports.map Prod.fst).Nodup)
    (hpre : ∀ x : String, alookup sc.attrs ("X_MACRO_PORTS_" ++ x) = none)
    (pp : String × PortData) (hpp : pp ∈ sc.ports) :
    alookup (addMeta t orig sc).attrs ("X_MACRO_PORTS_" ++ pp.1) =
      if macroPortsStr orig pp.2.net = "" then none
      else some (eraseLast (macroPortsStr orig pp.2.net)) := by
  simp only [addMeta, addPortMeta]
  have hports : (setCellAttr sc "X_ORIG_MACRO_PRIM" t).ports = sc.ports := rfl
  rw [portMetaFold_lookup orig _ _ (by rw [hports]; exact hnd) pp (by rw [hports]; exact hpp)]
  have hbase : alookup (setCellAttr sc "X_ORIG_MACRO_PRIM" t).attrs
      ("X_MACRO_PORTS_" ++ pp.1) = none := by
    simp only [setCellAttr]
    rw [alookup_aset_ne _ _ (Ne.symm (macro_ports_key_ne_orig pp.1))]
    exact hpre pp.1
  rw [hbase]

theorem addMeta_provenance (t : String) (orig : List (String × PortData)) (sc : CellM)
    (hnd : (sc.ports.map Prod.fst).Nodup)
    (hpre : ∀ x : String, alookup sc.attrs ("X_MACRO_PORTS_" ++ x) = none)
    (hg : ∀ (pnet : Option String), ∀ m ∈ macroMatches orig pnet,
      ';' ∉ m.1.data ∧ ',' ∉ m.1.data) :
    alookup (addMeta t orig sc).attrs "X_ORIG_MACRO_PRIM" = some t ∧
    ∀ pp ∈ (addMeta t orig sc).ports,
      (macroMatches orig pp.2.net = [] →
        alookup (addMeta t orig sc).attrs ("X_MACRO_PORTS_" ++ pp.1) = none) ∧
      (macroMatches orig pp.2.net ≠ [] →
        alookup (addMeta t orig sc).attrs ("X_MACRO_PORTS_" ++ pp.1) =
          some (eraseLast (macroPortsStr orig pp.2.net)) ∧
        parseMacroPorts (eraseLast (macroPortsStr orig pp.2.net)) =
          (macroMatches orig pp.2.net).map (fun m => (m.1, dirStr m.2.dir))) := by
  refine ⟨addMeta_lookup_orig t orig sc, ?_⟩
  intro pp hpp
  rw [addMeta_ports] at hpp
  constructor
  · intro hempty
    rw [addMeta_lookup_port t orig sc hnd hpre pp hpp]
    rw [if_pos ((macroPortsStr_empty_iff orig pp.2.net).mpr hempty)]
  · intro hne
    have hstr : ¬macroPortsStr orig pp.2.net = "" := fun h =>
      hne ((macroPortsStr_empty_iff orig pp.2.net).mp h)
    rw [addMeta_lookup_port t orig sc hnd hpre pp hpp, if_neg hstr]
    exact ⟨rfl, parse_macroPortsStr orig pp.2.net hne (hg pp.2.net)⟩

theorem portName_sep_free (nm : String) (h : ';' ∉ nm.data ∧ ',' ∉ nm.data)
    (pd : PortData) :
    ';' ∉ ((nm, pd) : String × PortData).1.data ∧
    ',' ∉ ((nm, pd) : String × PortData).1.data := h

/-- Claim C3: both sub-cells of a decomposed bidirectional macro carry
the macro's type under `X_ORIG_MACRO_PRIM`; every sub-cell port sharing
a non-null net with at least one original macro port carries an
`X_MACRO_PORTS_`-keyed attribute whose `name,dir;...` serialization,
re-parsed, is exactly the matching original ports with their
directions (ports without matches carry no such attribute); sub-cells of
single-ended macros carry no provenance attributes at all. -/
theorem decompose_iob_provenance (env : DecEnv) (hr : Bool) (ios : String) :
    (∀ (nm ty pn site : String) (dI dO dIO dT dIBD dITD dDCI : PortType)
        (iN oN tN ibdN itdN dciN : Option String) (ats : List (String × String)),
      ty ∈ iobufTypes → pad_site env pn = Except.ok site →
      ∃ m2 i o,
        decompose_iob env
            (mkBidirMacro nm ty pn dI dO dIO dT dIBD dITD dDCI iN oN tN ibdN itdN dciN ats)
            hr ios = Except.ok (m2, [i, o]) ∧
        (∀ sc ∈ [i, o],
          alookup sc.attrs "X_ORIG_MACRO_PRIM" = some ty ∧
          ∀ pp ∈ sc.ports,
            (macroMatches (mkBidirMacro nm ty pn dI dO dIO dT dIBD dITD dDCI iN oN tN ibdN
                itdN dciN ats).ports pp.2.net = [] →
              alookup sc.attrs ("X_MACRO_PORTS_" ++ pp.1) = none) ∧
            (macroMatches (mkBidirMacro nm ty pn dI dO dIO dT dIBD dITD dDCI iN oN tN ibdN
                itdN dciN ats).ports pp.2.net ≠ [] →
              alookup sc.attrs ("X_MACRO_PORTS_" ++ pp.1) =
                some (eraseLast (macroPortsStr (mkBidirMacro nm ty pn dI dO dIO dT dIBD
                  dITD dDCI iN oN tN ibdN itdN dciN ats).ports pp.2.net)) ∧
              parseMacroPorts (eraseLast (macroPortsStr (mkBidirMacro nm ty pn dI dO dIO dT
                  dIBD dITD dDCI iN oN tN ibdN itdN dciN ats).ports pp.2.net)) =
                (macroMatches (mkBidirMacro nm ty pn dI dO dIO dT dIBD dITD dDCI iN oN tN
                  ibdN itdN dciN ats).ports pp.2.net).map
                  (fun m => (m.1, dirStr m.2.dir))))) ∧
    (∀ (nm ty pn site : String) (dI dO dIBD dITD : PortType)
        (oN ibdN itdN : Option String) (ats : List (String × String)),
      ty ∈ ibufTypes → pad_site env pn = Except.ok site →
      ∃ m2 c,
        decompose_iob env (mkIbufMacro nm ty pn dI dO dIBD dITD oN ibdN itdN ats) hr ios =
          Except.ok (m2, [c]) ∧
        c.attrs = [("BEL", site ++ "/IOB33/INBUF_EN")]) ∧
    (∀ (nm ty pn site : String) (dI dO dT dDCI : PortType)
        (iN tN dciN : Option String) (ats : List (String × String)),
      ty ∈ obufTypes → pad_site env pn = Except.ok site →
      ∃ m2 c,
        decompose_iob env (mkObufMacro nm ty pn dI dO dT dDCI iN tN dciN ats) hr ios =
          Except.ok (m2, [c]) ∧
        c.attrs = [("BEL", site ++ "/IOB33/OUTBUF")]) := by
  refine ⟨?_, ?_, ?_⟩
  · intro nm ty pn site dI dO dIO dT dIBD dITD dDCI iN oN tN ibdN itdN dciN ats hty hsite
    refine ⟨_, _, _,
      decompose_iob_bidir_eq env nm ty pn site dI dO dIO dT dIBD dITD dDCI iN oN tN ibdN
        itdN dciN ats hr ios hty hsite, ?_⟩
    have hgood : ∀ (pnet : Option String),
        ∀ m ∈ macroMatches (mkBidirMacro nm ty pn dI dO dIO dT dIBD dITD dDCI iN oN tN ibdN
          itdN dciN ats).ports pnet, ';' ∉ m.1.data ∧ ',' ∉ m.1.data := by
      intro pnet m hm
      have h2 : m ∈ (mkBidirMacro nm ty pn dI dO dIO dT dIBD dITD dDCI iN oN tN ibdN itdN
          dciN ats).ports := List.mem_of_mem_filter hm
      simp only [mkBidirMacro, List.mem_cons, List.not_mem_nil, or_false] at h2
      rcases h2 with h | h | h | h | h | h | h <;> subst h <;> (apply portName_sep_free; decide)
    intro sc hsc
    rw [List.mem_cons, List.mem_singleton] at hsc
    rcases hsc with h | h <;> subst h
    · refine addMeta_provenance ty _ (bidirInbuf nm (ibufTypeOf ty) site pn dIBD dITD oN
        ibdN itdN) ?_ ?_ hgood
      · simp [bidirInbuf]
      · intro x
        simp only [bidirInbuf, alookup]
        rw [if_neg (Ne.symm (macro_ports_key_ne_bel x))]
    · refine addMeta_provenance ty _ (bidirObuf nm (obufTypeOf ty) site pn dDCI iN tN
        dciN) ?_ ?_ hgood
      · simp [bidirObuf]
      · intro x
        simp only [bidirObuf, alookup]
        rw [if_neg (Ne.symm (macro_ports_key_ne_bel x))]
  · intro nm ty pn site dI dO dIBD dITD oN ibdN itdN ats hty hsite
    exact ⟨_, _,
      decompose_iob_ibuf_eq env nm ty pn site dI dO dIBD dITD oN ibdN itdN ats hr ios
        hty hsite, rfl⟩
  · intro nm ty pn site dI dO dT dDCI iN tN dciN ats hty hsite
    exact ⟨_, _,
      decompose_iob_obuf_eq env nm ty pn site dI dO dT dDCI iN tN dciN ats hr ios
        hty hsite, rfl⟩

/-- Environment of the C3 witness: net `p3` feeds a pad bound to site
`S3`. -/
def envW3 : DecEnv :=
  { users := fun n =>
      if n = "p3" then [{ cellType := "PAD", cellAttrs := [("BEL", "S3/PAD")] }] else [],
    belSite := fun s => if s = "S3/PAD" then "S3" else "" }

/-- The concrete `IOBUF` macro of the C3 witness. -/
def mW3 : CellM :=
  mkBidirMacro "b3" "IOBUF" "p3" PortType.PORT_IN PortType.PORT_OUT PortType.PORT_INOUT
    PortType.PORT_IN PortType.PORT_IN PortType.PORT_IN PortType.PORT_IN
    (some "di") (some "do") none none none none []

/-- Witness for C3 at a concrete environment and a concrete `IOBUF`. -/
theorem decompose_iob_provenance_witness :
    "IOBUF" ∈ iobufTypes ∧ pad_site envW3 "p3" = Except.ok "S3" ∧
    (∃ m2 i o,
      decompose_iob envW3 mW3 true "" = Except.ok (m2, [i, o]) ∧
      (∀ sc ∈ [i, o],
        alookup sc.attrs "X_ORIG_MACRO_PRIM" = some "IOBUF" ∧
        ∀ pp ∈ sc.ports,
          (macroMatches mW3.ports pp.2.net = [] →
            alookup sc.attrs ("X_MACRO_PORTS_" ++ pp.1) = none) ∧
          (macroMatches mW3.ports pp.2.net ≠ [] →
            alookup sc.attrs ("X_MACRO_PORTS_" ++ pp.1) =
              some (eraseLast (macroPortsStr mW3.ports pp.2.net)) ∧
            parseMacroPorts (eraseLast (macroPortsStr mW3.ports pp.2.net)) =
              (macroMatches mW3.ports pp.2.net).map (fun m => (m.1, dirStr m.2.dir))))) :=
  ⟨by decide, rfl,
    (decompose_iob_provenance envW3 true "").1 "b3" "IOBUF" "p3" "S3" PortType.PORT_IN
      PortType.PORT_OUT PortType.PORT_INOUT PortType.PORT_IN PortType.PORT_IN
      PortType.PORT_IN PortType.PORT_IN (some "di") (some "do") none none none none []
      (by decide) rfl⟩
